import Mathlib

/-!
Verification of the Bounter model-session orchestrator against its source
(src/bounter/agent.py, src/bounter/reporting.py, src/bounter/tools.py).

Python strings are embedded as `List Char` (ASCII; the repository's keyword
sets, note templates and error messages are all ASCII, so Python's
Unicode-aware `lower`/`strip` coincide with the ASCII versions used here).
Python `datetime` values are embedded as opaque `Nat` timestamps.
-/

set_option maxRecDepth 4000

namespace Bounter

/-- Python strings, embedded as character lists so that every operation
evaluates inside the kernel. -/
abbrev Str := List Char

/-- Literal conversion helper: a Lean string literal to its `Str` embedding. -/
def lit (s : String) : Str := s.data

/-- A single-quote character, used by the note templates of agent.py. -/
def sq : Str := [Char.ofNat 39]

/-- ASCII lower-casing of one character (Python `str.lower` on ASCII). -/
def lowerChar (c : Char) : Char :=
  if 65 ≤ c.toNat ∧ c.toNat ≤ 90 then Char.ofNat (c.toNat + 32) else c

/-- Python `s.lower()`. -/
def toLowerS (s : Str) : Str := s.map lowerChar

/-- Python whitespace test used by `str.strip` (ASCII whitespace). -/
def isSpaceChar (c : Char) : Bool :=
  c.toNat = 32 ∨ c.toNat = 9 ∨ c.toNat = 10 ∨ c.toNat = 13 ∨ c.toNat = 11 ∨ c.toNat = 12

/-- Python `s.strip()`. -/
def stripS (s : Str) : Str :=
  ((s.dropWhile isSpaceChar).reverse.dropWhile isSpaceChar).reverse

/-- Whether `pat` is a prefix of `hay` (Python `s.startswith(pat)`). -/
def isPrefixS : Str → Str → Bool
  | [], _ => true
  | _ :: _, [] => false
  | p :: ps, h :: hs => p = h && isPrefixS ps hs

/-- Python substring membership `pat in hay`. -/
def containsS : Str → Str → Bool
  | [], pat => pat.isEmpty
  | h :: t, pat => isPrefixS pat (h :: t) || containsS t pat

/-- Python `sep.join(items)` / `str.join`. -/
def joinWithS (sep : Str) : List Str → Str
  | [] => []
  | [x] => x
  | x :: y :: xs => x ++ sep ++ joinWithS sep (y :: xs)

/-- Decimal rendering of a natural number (Python f-string interpolation). -/
def natToStr (n : Nat) : Str := (Nat.repr n).data

/-- Python truthiness of an optional string (`None` and `""` are falsy). -/
def optStrTruthy : Option Str → Bool
  | some s => !s.isEmpty
  | none => false

/-!
## The response-part universe

`_extract_text_segments` (reporting.py) walks arbitrary response values: a
string, a sequence, or an object exposing optional `text` and `parts`
attributes.  `Node` is that universe; the objects the repository feeds it
(genai parts and the SimpleNamespace test doubles) expose exactly those two
attributes, so the `model_dump`/`to_dict` branch of the source contributes no
further segments and is not represented.
-/

/-- A value reachable from a response part, as walked by
`_extract_text_segments`. -/
inductive Node where
  | str (s : Str)
  | seqn (items : List Node)
  | obj (text : Option Node) (parts : Option Node)

/-- Python truthiness of a `Node` (`""` and `[]` are falsy, objects truthy). -/
def Node.truthy : Node → Bool
  | .str s => !s.isEmpty
  | .seqn items => !items.isEmpty
  | .obj _ _ => true

/-- The value of a part's `thought` attribute: absent (`None`), a Python bool,
or another object.  `eqFalse` records whether that object compares equal to
`False` — Python's `marker not in (None, False)` is an equality test, so for
example `0` and `0.0` count as `False` here. -/
inductive Marker where
  | null
  | bool (b : Bool)
  | obj (eqFalse : Bool) (value : Node)

/-- A response part as read by the agent and the reporter: `text`, the
`thought` marker, optional `role` and `kind_` tags, and the part's own
`parts` attribute (`inner`).  A `text` of `None` and of `""` behave
identically at every read site (both are falsy), so both are embedded
as `[]`. -/
structure Part where
  text : Str := []
  thought : Marker := .null
  role : Option Str := none
  kind_ : Option Str := none
  inner : List Node := []

/-- The part viewed as a `Node` for text extraction: an object whose `text`
attribute is the part's text and whose `parts` attribute is its inner list. -/
def Part.toNode (p : Part) : Node :=
  .obj (some (.str p.text)) (some (.seqn p.inner))

/-- The shared role/kind fallback of the two thought classifiers
(agent.py `_is_thought_part` lines 618-624, reporting.py
`_resolve_thought_source` lines 96-102; the source text of the two is
identical): a string `role` equal to `"thought"` case-insensitively, else a
string `kind_` containing `"thought"` case-insensitively. -/
def thoughtRoleOrKind (p : Part) : Bool :=
  (match p.role with
   | some r => toLowerS r = lit "thought"
   | none => false) ||
  (match p.kind_ with
   | some k => containsS (toLowerS k) (lit "thought")
   | none => false)

/-- agent.py `BounterAgent._is_thought_part`: boolean marker wins; any other
marker not equal to `None`/`False` wins; otherwise role, then kind. -/
def _is_thought_part (p : Part) : Bool :=
  match p.thought with
  | .bool b => b
  | .obj eqFalse _ => if eqFalse then thoughtRoleOrKind p else true
  | .null => thoughtRoleOrKind p

/-- reporting.py `ScanReport._resolve_thought_source`: same classification as
`_is_thought_part`, additionally returning the node whose text is extracted
(the marker object itself when a non-bool truthy marker decided). -/
def _resolve_thought_source (p : Part) : Bool × Node :=
  match p.thought with
  | .bool b => (b, p.toNode)
  | .obj eqFalse v => if eqFalse then (thoughtRoleOrKind p, p.toNode) else (true, v)
  | .null => (thoughtRoleOrKind p, p.toNode)

/-- The layered thought-classification rule as the specification words it
(spec.md §4.1 and claim C2), written from the claim for comparison with the
code's classifiers: a boolean marker decides; otherwise any non-null,
non-false marker value of any type means thought; otherwise a role equal to
"thought" case-insensitively; otherwise a kind tag containing "thought"
case-insensitively; otherwise output. -/
def specThoughtRule (p : Part) : Bool :=
  match p.thought with
  | .bool b => b
  | .null =>
      (match p.role with
       | some r => toLowerS r = lit "thought"
       | none => false) ||
      (match p.kind_ with
       | some k => containsS (toLowerS k) (lit "thought")
       | none => false)
  | .obj eqFalse _ =>
      !eqFalse ||
      (match p.role with
       | some r => toLowerS r = lit "thought"
       | none => false) ||
      (match p.kind_ with
       | some k => containsS (toLowerS k) (lit "thought")
       | none => false)

/-- reporting.py `_extract_text_segments`.  The source bounds recursion by a
depth counter (`depth > 5` returns `[]`, children called at `depth + 1`);
here the remaining budget `fuel = 6 - depth` is carried instead, so the entry
point uses fuel 6. -/
def _extract_text_segments : Nat → Node → List Str
  | 0, _ => []
  | _ + 1, .str s => [s]
  | fuel + 1, .seqn items => (items.map fun it => _extract_text_segments fuel it).flatten
  | fuel + 1, .obj t ps =>
      (match t with
       | some tn => if tn.truthy then _extract_text_segments fuel tn else []
       | none => []) ++
      (match ps with
       | some pn => if pn.truthy then _extract_text_segments fuel pn else []
       | none => [])

/-- The per-part consumer loop of `update_from_response`: extract segments
from a source node, strip each, and keep the non-empty ones. -/
def cleanedSegments (n : Node) : List Str :=
  (_extract_text_segments 6 n).filterMap fun s =>
    let t := stripS s
    if t.isEmpty then none else some t

/-!
## Response data model (genai.types, as read by the repository)
-/

/-- Token usage metadata (`usage_metadata`). -/
structure Usage where
  thoughts_token_count : Option Nat := none
  candidates_token_count : Option Nat := none
  total_token_count : Option Nat := none

/-- A candidate's `content`: optional `role` and optional `parts` list. -/
structure Content where
  role : Option Str := none
  parts : Option (List Part) := none

/-- One candidate.  The aggregator copies `citation_metadata`,
`finish_message`, `token_count`, `finish_reason` and the other passthrough
fields verbatim from the last-seen candidate and nothing in the repository
reads them afterwards, so they are omitted from the embedding. -/
structure Candidate where
  index : Option Nat := none
  content : Option Content := none

/-- A `GenerateContentResponse`: both a stream chunk and the aggregated
response have this shape.  `prompt_feedback`, `response_id`, `model_version`
and the automatic-function-calling history are opaque passthrough payloads,
embedded as optional strings. -/
structure Response where
  candidates : Option (List Candidate) := none
  usage_metadata : Option Usage := none
  prompt_feedback : Option Str := none
  response_id : Option Str := none
  model_version : Option Str := none
  automatic_function_calling_history : Option Str := none

/-- Python truthiness of an optional parts list. -/
def optPartsTruthy : Option (List Part) → Bool
  | some l => !l.isEmpty
  | none => false

/-!
## Insertion-ordered dictionaries

The aggregator keys its buffers by candidate index in Python dicts; a dict is
embedded as an association list in insertion order: updating an existing key
keeps its position, inserting a new key appends at the end.
-/

/-- Python `d[k] = v`. -/
def dictSet {α : Type} : List (Nat × α) → Nat → α → List (Nat × α)
  | [], k, v => [(k, v)]
  | (k', v') :: t, k, v => if k' = k then (k', v) :: t else (k', v') :: dictSet t k v

/-- Python `d.get(k)`. -/
def dictGet {α : Type} : List (Nat × α) → Nat → Option α
  | [], _ => none
  | (k', v) :: t, k => if k' = k then some v else dictGet t k

/-- Python `d.setdefault(k, v)` (insert only when the key is absent). -/
def dictSetdefault {α : Type} : List (Nat × α) → Nat → α → List (Nat × α)
  | [], k, v => [(k, v)]
  | (k', v') :: t, k, v =>
      if k' = k then (k', v') :: t else (k', v') :: dictSetdefault t k v

/-- Python `d.setdefault(k, []).extend(vs)`. -/
def dictExtend : List (Nat × List Part) → Nat → List Part → List (Nat × List Part)
  | [], k, vs => [(k, vs)]
  | (k', v') :: t, k, vs =>
      if k' = k then (k', v' ++ vs) :: t else (k', v') :: dictExtend t k vs

/-!
## Streaming response aggregator (agent.py `_stream_model_response`)
-/

/-- The aggregation loop state of `_stream_model_response` lines 460-469. -/
structure AggState where
  final_chunk : Option Response := none
  aggregated_parts : List (Nat × List Part) := []
  aggregated_roles : List (Nat × Option Str) := []
  candidate_meta : List (Nat × Candidate) := []
  usage_metadata : Option Usage := none
  prompt_feedback : Option Str := none
  response_id : Option Str := none
  model_version : Option Str := none
  afc_history : Option Str := none

/-- Python `getattr(chunk, f, None) or old`: the fresh value wins when
present. -/
def keepNew {α : Type} : Option α → Option α → Option α
  | some a, _ => some a
  | none, old => old

/-- The body of the per-candidate loop (lines 484-499), taking the already
resolved candidate index.  `_handle_stream_chunk` only renders to the console
and mutates no aggregation state, so it has no counterpart here. -/
def pairStep (st : AggState) (ic : Nat × Candidate) : AggState :=
  let st := { st with candidate_meta := dictSet st.candidate_meta ic.1 ic.2 }
  match ic.2.content with
  | none => st
  | some content =>
    let st := { st with
      aggregated_roles := dictSetdefault st.aggregated_roles ic.1 content.role }
    let ps := content.parts.getD []
    if ps.isEmpty then st
    else { st with aggregated_parts := dictExtend st.aggregated_parts ic.1 ps }

/-- The candidates of a chunk with their resolved indices: the candidate's
own `index` when present, else its position in the chunk (lines 483-487). -/
def resolvedCandidates (ch : Response) : List (Nat × Candidate) :=
  (ch.candidates.getD []).enum.map fun pc => (pc.2.index.getD pc.1, pc.2)

/-- One iteration of the `for chunk in stream` loop (lines 470-499). -/
def chunkStep (st : AggState) (ch : Response) : AggState :=
  let st := { st with
    final_chunk := some ch
    usage_metadata := keepNew ch.usage_metadata st.usage_metadata
    prompt_feedback := keepNew ch.prompt_feedback st.prompt_feedback
    response_id := keepNew ch.response_id st.response_id
    model_version := keepNew ch.model_version st.model_version
    afc_history := keepNew ch.automatic_function_calling_history st.afc_history }
  (resolvedCandidates ch).foldl pairStep st

/-- Assembly of one combined candidate (lines 505-532).  The source builds
the candidate with `index=getattr(meta, "index", idx)`; a genai candidate
always has the `index` attribute, so the positional default never fires and
the last-seen candidate's own index is copied. -/
def buildCandidate (st : AggState) (im : Nat × Candidate) : Candidate :=
  let parts0 := dictGet st.aggregated_parts im.1
  let content := im.2.content
  let parts1 :=
    if optPartsTruthy parts0 then parts0
    else match content with
         | some c => c.parts
         | none => parts0
  let role0 := (dictGet st.aggregated_roles im.1).join
  let role1 :=
    if optStrTruthy role0 then role0
    else match content with
         | some c => c.role
         | none => role0
  let combined : Option Content :=
    if optPartsTruthy parts1 || optStrTruthy role1 then some { role := role1, parts := parts1 }
    else content
  { index := im.2.index, content := combined }

/-- The dedicated zero-chunk failure: agent.py raises
`RuntimeError("Model returned no streaming chunks")`, which is not a genai
client error. -/
inductive StreamError where
  | emptyStream
deriving DecidableEq

/-- The message of the zero-chunk `RuntimeError`. -/
def StreamError.message : StreamError → Str
  | .emptyStream => lit "Model returned no streaming chunks"

/-- agent.py `_stream_model_response` over the delivered chunk sequence:
aggregate per-candidate parts across chunks, fail on an empty stream, fall
back to the final chunk when no candidates were ever observed. -/
def _stream_model_response (chunks : List Response) : Except StreamError Response :=
  let st := chunks.foldl chunkStep {}
  if chunks.isEmpty then .error .emptyStream
  else
    let combined := st.candidate_meta.map (buildCandidate st)
    if combined.isEmpty then
      match st.final_chunk with
      | some ch => .ok ch
      | none => .ok {}
    else
      .ok { candidates := some combined
            usage_metadata := st.usage_metadata
            prompt_feedback := st.prompt_feedback
            response_id := st.response_id
            model_version := st.model_version
            automatic_function_calling_history := st.afc_history }

/-!
## Reporting (reporting.py)
-/

/-- reporting.py `CommandRecord`. -/
structure CommandRecord where
  command : Str
  success : Bool
  return_code : Option Int
  stdout : Str
  stderr : Str
  tool_name : Option Str := none
deriving DecidableEq

/-- reporting.py `ScanReport` (the Session Context).  Timestamps are opaque
`Nat` values standing for `datetime` instants. -/
structure ScanReport where
  target : Str
  description : Str
  start_time : Nat
  end_time : Option Nat := none
  commands : List CommandRecord := []
  thinking_summary : List Str := []
  final_analysis : Option Str := none
  thinking_tokens : Option Nat := none
  output_tokens : Option Nat := none
  total_tokens : Option Nat := none
  python_executor_invocations : Nat := 0
  total_tool_invocations : Nat := 0

/-- The dict payload handed to `ScanReport.log_command` and to the observer
callback by the tools.  `phase`/`event_id` correlate start and end observer
calls and are not read by `log_command`, so they are not carried. -/
structure ToolPayload where
  tool_name : Str
  command_executed : Str
  stdout : Str
  stderr : Str
  return_code : Option Int
  success : Bool
  error : Option Str := none
deriving DecidableEq

/-- reporting.py `ScanReport.log_command`: append exactly one
`CommandRecord` and bump the invocation counters. -/
def log_command (r : ScanReport) (p : ToolPayload) : ScanReport :=
  { r with
    commands := r.commands ++
      [{ command := p.command_executed, success := p.success,
         return_code := p.return_code, stdout := p.stdout,
         stderr := p.stderr, tool_name := some p.tool_name }]
    total_tool_invocations := r.total_tool_invocations + 1
    python_executor_invocations :=
      r.python_executor_invocations +
        (if p.tool_name = lit "python_code_executor" then 1 else 0) }

/-- The part loop of `update_from_response` (lines 68-76): classify each part,
extract its cleaned segments, and route them to the thinking log
(first component) or the final-answer chunks (second component). -/
def responseSegments (parts : List Part) : List Str × List Str :=
  parts.foldl
    (fun acc p =>
      let r := _resolve_thought_source p
      let segs := cleanedSegments r.2
      if r.1 then (acc.1 ++ segs, acc.2) else (acc.1, acc.2 ++ segs))
    ([], [])

/-- The message of the `TypeError` CPython raises at
`response.candidates[0]` when `candidates` is `None` (that error is not in
the `(AttributeError, IndexError)` handler and escapes to the caller). -/
def tyErrMsg : Str := sq ++ lit "NoneType" ++ sq ++ lit " object is not subscriptable"

/-- reporting.py `ScanReport.update_from_response`.  `now` stands for
`datetime.now(timezone.utc)`.  Returns the mutated report together with the
message of an escaping `TypeError`, if any: the `end_time` assignment on
line 61 precedes the `candidates[0]` subscript, so the report is mutated even
on that escaping path. -/
def update_from_response (r : ScanReport) (now : Nat) (resp : Response) :
    ScanReport × Option Str :=
  let r := { r with end_time := some now }
  match resp.candidates with
  | none => (r, some tyErrMsg)
  | some [] => (r, none)
  | some (candidate :: _) =>
    let parts := (candidate.content.bind Content.parts).getD []
    let segs := responseSegments parts
    let r := { r with thinking_summary := r.thinking_summary ++ segs.1 }
    let r := if segs.2.isEmpty then r
             else { r with final_analysis := some (joinWithS (lit "\n") segs.2) }
    let r := match resp.usage_metadata with
             | some u => { r with
                 thinking_tokens := u.thoughts_token_count
                 output_tokens := u.candidates_token_count
                 total_tokens := u.total_token_count }
             | none => r
    (r, none)

/-!
## Rate-limit detection and operational notes (agent.py)
-/

/-- agent.py `RATE_LIMIT_KEYWORDS`. -/
def RATE_LIMIT_KEYWORDS : List Str :=
  [lit "rate limit", lit "rate-limit", lit "quota", lit "too many requests",
   lit "429", lit "limit reached"]

/-- agent.py `_response_indicates_rate_limit`: any non-empty part text of any
candidate contains a rate-limit keyword case-insensitively. -/
def _response_indicates_rate_limit (resp : Response) : Bool :=
  (resp.candidates.getD []).any fun candidate =>
    ((candidate.content.bind Content.parts).getD []).any fun part =>
      if part.text.isEmpty then false
      else RATE_LIMIT_KEYWORDS.any fun keyword => containsS (toLowerS part.text) keyword

/-- The note text of `_record_rate_limit_note`. -/
def rateLimitNote (model : Str) (detail : Option Str) : Str :=
  let note := lit "Model " ++ sq ++ model ++ sq ++ lit " hit a rate/availability limit"
  match detail with
  | some d => note ++ lit ": " ++ d
  | none => note

/-- agent.py `_record_rate_limit_note`: deduplicated append. -/
def _record_rate_limit_note (notes : List Str) (model : Str) (detail : Option Str) :
    List Str :=
  let note := rateLimitNote model detail
  if note ∈ notes then notes else notes ++ [note]

/-- agent.py `_record_incomplete_response_note`: deduplicated append, then
evict the oldest entries beyond the bound of 5. -/
def _record_incomplete_response_note (notes : List Str) (note : Str) : List Str :=
  if note ∈ notes then notes
  else
    let notes := notes ++ [note]
    if notes.length > 5 then notes.drop (notes.length - 5) else notes

/-- The note recorded by `_handle_incomplete_response`. -/
def incompleteNote (model : Str) (attempt : Nat) : Str :=
  lit "Model " ++ sq ++ model ++ sq ++ lit " returned no final analysis (attempt "
    ++ natToStr attempt ++ lit "); prompting it to continue."

/-- The exhaustion note of `run` line 387. -/
def exhaustionNote (model : Str) (attempt : Nat) : Str :=
  lit "Model " ++ sq ++ model ++ sq ++ lit " still produced no final analysis after "
    ++ natToStr attempt ++ lit " attempts; switching models."

/-- The exhaustion note of `run` line 423. -/
def noChunksExhaustionNote (model : Str) (attempt : Nat) : Str :=
  lit "Model " ++ sq ++ model ++ sq ++ lit " never produced streaming chunks after "
    ++ natToStr attempt ++ lit " attempts; switching models."

/-- agent.py `_is_rate_limit_error` (the caller passes an already lowercased
message; lowering is idempotent, and the source lowers again internally). -/
def _is_rate_limit_error (code : Option Nat) (message : Str) : Bool :=
  if code = some 429 ∨ code = some 503 then true
  else
    let keywords := [lit "rate limit", lit "quota", lit "too many requests",
                     lit "overloaded", lit "unavailable", lit "exhausted"]
    let text := toLowerS message
    keywords.any fun keyword => containsS text keyword

/-!
## Model fallback and retry controller (agent.py `run`)

One network attempt is fed either the chunk sequence the backend streams
(whose aggregation may itself raise) or a transport exception.  Tool-registry
construction and prompt composition feed only the outbound request and mutate
none of the state the claims concern, so they have no counterpart here;
`run` resets `_rate_limit_notes` to `[]` on entry (line 271).
-/

/-- A transport exception: genai `ClientError`s carry a `code`; any other
exception reaches the generic `except Exception` arm. -/
structure AttemptError where
  isClientError : Bool
  code : Option Nat
  message : Str
deriving DecidableEq

/-- What the backend does on one attempt: stream a chunk sequence, or raise. -/
inductive AttemptFeed where
  | stream (chunks : List Response)
  | raise (e : AttemptError)

/-- The network call of one attempt: aggregate the streamed chunks; the
zero-chunk `RuntimeError` of the aggregator is an ordinary (non-client)
exception to the caller. -/
def dispatchFeed : AttemptFeed → Except AttemptError Response
  | .raise e => .error e
  | .stream chunks =>
      match _stream_model_response chunks with
      | .ok resp => .ok resp
      | .error se => .error { isClientError := false, code := none, message := se.message }

/-- The controller state that survives across attempts. -/
structure AgentState where
  report : ScanReport
  rate_limit_notes : List Str
  incomplete_response_notes : List Str

/-- How the inner `while True` loop of one model ends. -/
inductive ModelVerdict where
  | advance
  | success (resp : Response)
  | raised (e : AttemptError)
  | starved

/-- Result of running the inner loop for one model: verdict, state,
captured last exception, unconsumed feed, and the dispatched attempts as
`(model, attempt)` pairs in order. -/
structure ModelRunOut where
  verdict : ModelVerdict
  state : AgentState
  lastExc : Option AttemptError
  feedRest : List AttemptFeed
  attempts : List (Str × Nat)

/-- agent.py `INCOMPLETE_RESPONSE_RETRIES`. -/
def INCOMPLETE_RESPONSE_RETRIES : Nat := 2

/-- The inner `while True` loop of `run` (lines 277-439) for one model.
`attempt0` is the attempt counter before `attempt += 1`.  An empty feed means
the scenario script ends mid-run (`starved`); no claim exercises it. -/
def runOneModel (model : Str) (now : Nat) :
    Nat → AgentState → Option AttemptError → List AttemptFeed → ModelRunOut
  | _, st, lastExc, [] => ⟨.starved, st, lastExc, [], []⟩
  | attempt0, st, lastExc, feed :: rest =>
    let attempt := attempt0 + 1
    match dispatchFeed feed with
    | .ok resp =>
      let upd := update_from_response st.report now resp
      match upd.2 with
      | some msg =>
        -- the TypeError from the merge escapes into the generic
        -- `except Exception` arm (lines 413-436) with the report already
        -- partially mutated
        let e : AttemptError := { isClientError := false, code := none, message := msg }
        let st := { st with report := upd.1 }
        let lastExc := some e
        let lmsg := toLowerS e.message
        if containsS lmsg (lit "no streaming chunks") then
          let st1 := { st with
            report := { st.report with end_time := none }
            incomplete_response_notes :=
              _record_incomplete_response_note st.incomplete_response_notes
                (incompleteNote model attempt) }
          if attempt < INCOMPLETE_RESPONSE_RETRIES then
            let out := runOneModel model now attempt st1 lastExc rest
            { out with attempts := (model, attempt) :: out.attempts }
          else
            let st2 := { st1 with
              incomplete_response_notes :=
                _record_incomplete_response_note st1.incomplete_response_notes
                  (noChunksExhaustionNote model attempt) }
            ⟨.advance, st2, lastExc, rest, [(model, attempt)]⟩
        else if _is_rate_limit_error none lmsg then
          let st1 := { st with
            rate_limit_notes :=
              _record_rate_limit_note st.rate_limit_notes model (some e.message) }
          ⟨.advance, st1, lastExc, rest, [(model, attempt)]⟩
        else
          ⟨.raised e, st, lastExc, rest, [(model, attempt)]⟩
      | none =>
        let report1 := upd.1
        if _response_indicates_rate_limit resp then
          let st1 : AgentState :=
            { report := { report1 with end_time := none }
              rate_limit_notes :=
                _record_rate_limit_note st.rate_limit_notes model
                  (some (lit "Model reported rate limit signal in response"))
              incomplete_response_notes := st.incomplete_response_notes }
          ⟨.advance, st1, lastExc, rest, [(model, attempt)]⟩
        else if !optStrTruthy report1.final_analysis then
          let st1 : AgentState :=
            { report := { report1 with end_time := none }
              rate_limit_notes := st.rate_limit_notes
              incomplete_response_notes :=
                _record_incomplete_response_note st.incomplete_response_notes
                  (incompleteNote model attempt) }
          if attempt < INCOMPLETE_RESPONSE_RETRIES then
            let out := runOneModel model now attempt st1 lastExc rest
            { out with attempts := (model, attempt) :: out.attempts }
          else
            let st2 := { st1 with
              incomplete_response_notes :=
                _record_incomplete_response_note st1.incomplete_response_notes
                  (exhaustionNote model attempt) }
            ⟨.advance, st2, lastExc, rest, [(model, attempt)]⟩
        else
          let st1 : AgentState :=
            { report := report1
              rate_limit_notes := st.rate_limit_notes
              incomplete_response_notes := [] }
          ⟨.success resp, st1, lastExc, rest, [(model, attempt)]⟩
    | .error e =>
      let lastExc := some e
      if e.isClientError then
        -- `except genai.errors.ClientError` (lines 396-412)
        if _is_rate_limit_error e.code (toLowerS e.message) then
          let st1 := { st with
            rate_limit_notes :=
              _record_rate_limit_note st.rate_limit_notes model (some e.message) }
          ⟨.advance, st1, lastExc, rest, [(model, attempt)]⟩
        else
          ⟨.raised e, st, lastExc, rest, [(model, attempt)]⟩
      else
        -- `except Exception` (lines 413-436)
        let lmsg := toLowerS e.message
        if containsS lmsg (lit "no streaming chunks") then
          let st1 := { st with
            report := { st.report with end_time := none }
            incomplete_response_notes :=
              _record_incomplete_response_note st.incomplete_response_notes
                (incompleteNote model attempt) }
          if attempt < INCOMPLETE_RESPONSE_RETRIES then
            let out := runOneModel model now attempt st1 lastExc rest
            { out with attempts := (model, attempt) :: out.attempts }
          else
            let st2 := { st1 with
              incomplete_response_notes :=
                _record_incomplete_response_note st1.incomplete_response_notes
                  (noChunksExhaustionNote model attempt) }
            ⟨.advance, st2, lastExc, rest, [(model, attempt)]⟩
        else if _is_rate_limit_error none lmsg then
          let st1 := { st with
            rate_limit_notes :=
              _record_rate_limit_note st.rate_limit_notes model (some e.message) }
          ⟨.advance, st1, lastExc, rest, [(model, attempt)]⟩
        else
          ⟨.raised e, st, lastExc, rest, [(model, attempt)]⟩

/-- How `run` ends: a returned response, a re-raised exception, or the
`RuntimeError("No models available to process the request")`. -/
inductive RunResult where
  | success (resp : Response)
  | raised (e : AttemptError)
  | raisedNoModels
  | starved

/-- Overall result of `run`: final result, final state, and the dispatched
attempts in order. -/
structure RunOut where
  result : RunResult
  state : AgentState
  attempts : List (Str × Nat)

/-- The `for model_name in self.config.models_order` loop of `run` plus the
final re-raise (lines 273-443). -/
def runModels (now : Nat) :
    List Str → AgentState → Option AttemptError → List AttemptFeed → RunOut
  | [], st, lastExc, _ =>
      match lastExc with
      | some e => ⟨.raised e, st, []⟩
      | none => ⟨.raisedNoModels, st, []⟩
  | model :: more, st, lastExc, feed =>
      let out := runOneModel model now 0 st lastExc feed
      match out.verdict with
      | .advance =>
          let tailOut := runModels now more out.state out.lastExc out.feedRest
          ⟨tailOut.result, tailOut.state, out.attempts ++ tailOut.attempts⟩
      | .success resp => ⟨.success resp, out.state, out.attempts⟩
      | .raised e => ⟨.raised e, out.state, out.attempts⟩
      | .starved => ⟨.starved, out.state, out.attempts⟩

/-- agent.py `run`: fresh rate-limit notes, then the model loop.
`incompleteNotes0` is the agent's `_incomplete_response_notes` field, which
`run` does not reset on entry. -/
def runAgent (models : List Str) (report0 : ScanReport) (incompleteNotes0 : List Str)
    (now : Nat) (feed : List AttemptFeed) : RunOut :=
  runModels now models ⟨report0, [], incompleteNotes0⟩ none feed

/-- The controller state after a rate-limited successful response: the merged
report with its completion time cleared, plus the deduplicated rate-limit
note. -/
def rateLimitAdvanceState (st : AgentState) (model : Str) (report1 : ScanReport) :
    AgentState :=
  ⟨{ report1 with end_time := none },
   _record_rate_limit_note st.rate_limit_notes model
     (some (lit "Model reported rate limit signal in response")),
   st.incomplete_response_notes⟩

/-- The controller state after an incomplete successful response: the merged
report with its completion time cleared, plus the incomplete-response note
for this attempt. -/
def incompleteRetryState (st : AgentState) (model : Str) (report1 : ScanReport)
    (attempt : Nat) : AgentState :=
  ⟨{ report1 with end_time := none },
   st.rate_limit_notes,
   _record_incomplete_response_note st.incomplete_response_notes
     (incompleteNote model attempt)⟩

/-- The controller state when the incomplete-response retry ceiling is
reached: the retry state plus the exhaustion note. -/
def incompleteExhaustState (st : AgentState) (model : Str) (report1 : ScanReport)
    (attempt : Nat) : AgentState :=
  { incompleteRetryState st model report1 attempt with
    incomplete_response_notes :=
      _record_incomplete_response_note
        (incompleteRetryState st model report1 attempt).incomplete_response_notes
        (exhaustionNote model attempt) }

/-- The controller state after a no-streaming-chunks failure: completion time
cleared, incomplete-response note recorded, report otherwise untouched. -/
def noChunksRetryState (st : AgentState) (model : Str) (attempt : Nat) : AgentState :=
  ⟨{ st.report with end_time := none },
   st.rate_limit_notes,
   _record_incomplete_response_note st.incomplete_response_notes
     (incompleteNote model attempt)⟩

/-- The no-chunks retry state plus its exhaustion note. -/
def noChunksExhaustState (st : AgentState) (model : Str) (attempt : Nat) : AgentState :=
  { noChunksRetryState st model attempt with
    incomplete_response_notes :=
      _record_incomplete_response_note
        (noChunksRetryState st model attempt).incomplete_response_notes
        (noChunksExhaustionNote model attempt) }

/-- The controller state after a rate-limited transport error. -/
def rateLimitErrorState (st : AgentState) (model : Str) (e : AttemptError) : AgentState :=
  { st with
    rate_limit_notes := _record_rate_limit_note st.rate_limit_notes model (some e.message) }

/-!
## Tool invocation logging (tools.py)

Each tool body is modelled by the sequence of externally visible reporting
events it performs: observer start calls, `report.log_command` appends, and
observer completion calls, in program order.  Console rendering
(`_render_stream`, status spinners, progress bars) mutates no reported state
and has no counterpart.
-/

/-- One reporting event of a tool body. -/
inductive ToolEvent where
  | observerStart (tool_name command : Str)
  | logAppend (p : ToolPayload)
  | observerEnd (p : ToolPayload)
deriving DecidableEq

/-- The scripted outcome of `subprocess.run(..., check=True)` in the system
command tool: completion, `CalledProcessError` (whose `stdout`/`stderr` may
be `None`), or `TimeoutExpired`. -/
inductive SubprocOutcome where
  | completed (stdout stderr : Str) (returncode : Int)
  | callFailed (stdout stderr : Option Str) (returncode : Int) (excStr : Str)
  | timedOut

/-- tools.py `execute_system_command_impl` (lines 78-177): the returned
payload and the reporting events, in order. -/
def execute_system_command_impl (hasObserver : Bool) (command : Str) (timeout : Nat)
    (res : SubprocOutcome) : ToolPayload × List ToolEvent :=
  let tool_name := lit "build_system_command_tool"
  let startEvents : List ToolEvent :=
    if hasObserver then [.observerStart tool_name command] else []
  let finishWith : ToolPayload → ToolPayload × List ToolEvent := fun payload =>
    (payload, startEvents ++ [.logAppend payload] ++
      (if hasObserver then [.observerEnd payload] else []))
  match res with
  | .completed out err rc =>
      finishWith
        { tool_name := tool_name, command_executed := command,
          stdout := stripS out, stderr := stripS err,
          return_code := some rc, success := true }
  | .callFailed out err rc excStr =>
      finishWith
        { tool_name := tool_name, command_executed := command,
          stdout := stripS (out.getD []), stderr := stripS (err.getD []),
          return_code := some rc, success := false, error := some excStr }
  | .timedOut =>
      finishWith
        { tool_name := tool_name, command_executed := command,
          stdout := [],
          stderr := lit "Command timed out after " ++ natToStr timeout ++ lit " seconds",
          return_code := none, success := false, error := some (lit "Timeout") }

/-- A scripted `subprocess.run` result for the searchsploit tool (no
`check=True` there). -/
structure SsProcResult where
  stdout : Str
  stderr : Str
  returncode : Int

/-- The arguments of `searchsploit_lookup`. -/
structure SsArgs where
  action : Str := lit "search"
  query : Option Str := none
  cve_id : Option Str := none
  edb_id : Option Str := none
  mirror_directory : Option Str := none
  execute_command : Option Str := none

/-- The scripted environment of one `searchsploit_lookup` invocation:
successive `subprocess.run` results, whether the mirrored source path exists
on disk, and whether `json.loads` succeeds on a given stdout. -/
structure SsEnv where
  results : Nat → SsProcResult
  pathExists : Str → Bool
  jsonParses : Str → Bool
  hasObserver : Bool

/-- tools.py `_format_command`: `shlex.quote` affects only the rendering of
the logged command text, so plain space-joining stands in for it. -/
def shlexJoin (parts : List Str) : Str := joinWithS (lit " ") parts

/-- tools.py `_run_subprocess` (lines 208-257): one start observer call, one
`_log_event` (log append, then observer completion call), and the payload. -/
def ssRunSubprocess (hasObserver : Bool) (commandStr : Str) (res : SsProcResult) :
    ToolPayload × List ToolEvent :=
  let tool_name := lit "searchsploit_lookup"
  let payload : ToolPayload :=
    { tool_name := tool_name, command_executed := commandStr,
      stdout := stripS res.stdout, stderr := stripS res.stderr,
      return_code := some res.returncode, success := res.returncode = 0 }
  (payload,
    (if hasObserver then [ToolEvent.observerStart tool_name commandStr] else []) ++
      [.logAppend payload] ++
      (if hasObserver then [ToolEvent.observerEnd payload] else []))

/-- Python `stripped.partition(":")`: everything after the first colon
(empty when there is none). -/
def afterFirstColon : Str → Str
  | [] => []
  | c :: t => if c = ':' then t else afterFirstColon t

/-- The per-line body of `_extract_path`. -/
def extractPathLine (line : Str) : Option Str :=
  let stripped := stripS line
  if stripped.isEmpty then none
  else if isPrefixS (lit "path:") (toLowerS stripped) then
    let candidate := stripS (afterFirstColon stripped)
    if candidate.isEmpty then
      if isPrefixS (lit "/") stripped then some stripped else none
    else some candidate
  else if isPrefixS (lit "/") stripped then some stripped
  else none

/-- Python `s.splitlines()` restricted to `'\n'` separators; a trailing
newline yields a trailing empty line here where Python yields none, which
`extractPathLine` skips either way. -/
def splitLinesS : Str → List Str
  | [] => [[]]
  | c :: t =>
      if c = '\n' then [] :: splitLinesS t
      else match splitLinesS t with
           | [] => [[c]]
           | h :: rt => (c :: h) :: rt

/-- tools.py `_extract_path` (lines 259-271). -/
def _extract_path (stdout : Str) : Option Str :=
  (splitLinesS stdout).findSome? extractPathLine

/-- The observable outcome of `searchsploit_lookup`, summarised by which
return site produced it.  The returned dict's row payload (the JSON rows,
capped by `max_results`) feeds only the model's reply and carries no further
reporting events. -/
inductive SsRet where
  | searchOk
  | searchRunFailed
  | searchParseFailed
  | mirrorOk (executed : Bool)
  | mirrorPathRunFailed
  | mirrorNoPath
  | mirrorMissingFile
deriving DecidableEq

/-- tools.py `searchsploit_lookup` (lines 278-397): the outcome (`.error`
for a raised `ValueError`), the reporting events in order, and the number of
subprocess executions performed. -/
def searchsploit_lookup (env : SsEnv) (args : SsArgs) :
    Except Str SsRet × List ToolEvent × Nat :=
  let action0 := if args.action.isEmpty then lit "search" else args.action
  let action_normalized := toLowerS (stripS action0)
  if action_normalized = lit "search" then
    if !optStrTruthy args.query ∧ !optStrTruthy args.cve_id then
      (.error (lit "Either " ++ sq ++ lit "query" ++ sq ++ lit " or " ++ sq ++
        lit "cve_id" ++ sq ++ lit " is required for search"), [], 0)
    else
      let command := [lit "searchsploit", lit "--json"] ++
        (if optStrTruthy args.cve_id then [lit "--cve", args.cve_id.getD []] else []) ++
        (if optStrTruthy args.query then [args.query.getD []] else [])
      let run0 := ssRunSubprocess env.hasObserver (shlexJoin command) (env.results 0)
      if !run0.1.success then (.ok .searchRunFailed, run0.2, 1)
      else if !env.jsonParses run0.1.stdout then (.ok .searchParseFailed, run0.2, 1)
      else (.ok .searchOk, run0.2, 1)
  else if action_normalized = lit "mirror" then
    if !optStrTruthy args.edb_id then
      (.error (sq ++ lit "edb_id" ++ sq ++ lit " is required when action=" ++ sq ++
        lit "mirror" ++ sq), [], 0)
    else
      let run0 := ssRunSubprocess env.hasObserver
        (shlexJoin [lit "searchsploit", lit "-p", args.edb_id.getD []]) (env.results 0)
      if !run0.1.success then (.ok .mirrorPathRunFailed, run0.2, 1)
      else
        match _extract_path run0.1.stdout with
        | none => (.ok .mirrorNoPath, run0.2, 1)
        | some source_path =>
          if !env.pathExists source_path then (.ok .mirrorMissingFile, run0.2, 1)
          else
            -- `shutil.copy2` mirrors the file; no reporting event
            if optStrTruthy args.execute_command then
              let run1 := ssRunSubprocess env.hasObserver
                (shlexJoin [lit "/bin/sh", lit "-c", args.execute_command.getD []])
                (env.results 1)
              (.ok (.mirrorOk true), run0.2 ++ run1.2, 2)
            else (.ok (.mirrorOk false), run0.2, 1)
  else
    (.error (lit "Unsupported action. Use " ++ sq ++ lit "search" ++ sq ++ lit " or " ++
      sq ++ lit "mirror" ++ sq ++ lit " for the searchsploit tool."), [], 0)

/-- The number of command-log appends in an event trace. -/
def countLogAppends (events : List ToolEvent) : Nat :=
  (events.filter fun e => match e with | .logAppend _ => true | _ => false).length

/-- A trace is well paired when every log append is immediately followed by
the observer completion call carrying the same payload (when an observer is
installed), and no completion call occurs without its preceding append. -/
def wellPaired (hasObserver : Bool) : List ToolEvent → Bool
  | [] => true
  | .observerStart _ _ :: rest => wellPaired hasObserver rest
  | .logAppend p :: rest =>
      if hasObserver then
        match rest with
        | .observerEnd q :: rest2 => if p = q then wellPaired hasObserver rest2 else false
        | _ => false
      else wellPaired hasObserver rest
  | .observerEnd _ :: _ => false

/-!
## Report snapshot (reporting.py `_as_serializable`)
-/

/-- The JSON-serializable snapshot produced by `_as_serializable`
(lines 151-167): command records are dumped field-by-field
(`record.__dict__`), timestamps as their ISO rendering (kept here as the
underlying instants, on which `isoformat` is injective). -/
structure ReportSnapshot where
  target : Str
  description : Str
  start_time : Nat
  end_time : Option Nat
  commands : List CommandRecord
  thinking_summary : List Str
  final_analysis : Option Str
  thinking_tokens : Option Nat
  output_tokens : Option Nat
  total_tokens : Option Nat
  python_executor_invocations : Nat
  total_tool_invocations : Nat

/-- reporting.py `ScanReport._as_serializable`. -/
def _as_serializable (r : ScanReport) : ReportSnapshot :=
  { target := r.target
    description := r.description
    start_time := r.start_time
    end_time := r.end_time
    commands := r.commands
    thinking_summary := r.thinking_summary
    final_analysis := r.final_analysis
    thinking_tokens := r.thinking_tokens
    output_tokens := r.output_tokens
    total_tokens := r.total_tokens
    python_executor_invocations := r.python_executor_invocations
    total_tool_invocations := r.total_tool_invocations }

/-- Modelled from the spec: the repository serializes the Session Context
(`_as_serializable` / `save_json`) but ships no loader, while spec.md §8
asserts the round-trip "Session Context exported then reloaded from its
snapshot preserves command count, final answer text, and token totals
exactly" over the snapshot fields listed in §6.  This loader rebuilds a
`ScanReport` from exactly those snapshot fields. -/
def loadReport (s : ReportSnapshot) : ScanReport :=
  { target := s.target
    description := s.description
    start_time := s.start_time
    end_time := s.end_time
    commands := s.commands
    thinking_summary := s.thinking_summary
    final_analysis := s.final_analysis
    thinking_tokens := s.thinking_tokens
    output_tokens := s.output_tokens
    total_tokens := s.total_tokens
    python_executor_invocations := s.python_executor_invocations
    total_tool_invocations := s.total_tool_invocations }

/-!
## Specification-side descriptions of the aggregation (claim C1)

These functions state, directly from the claim's words, which candidates an
aggregated response must contain and what their parts must be; the theorems
compare them with `_stream_model_response`.
-/

/-- All `(resolved index, candidate)` pairs of a chunk sequence, in arrival
order. -/
def allPairs (chunks : List Response) : List (Nat × Candidate) :=
  (chunks.map resolvedCandidates).flatten

/-- First-occurrence deduplication, i.e. dict-key insertion order. -/
def insertionKeys (l : List Nat) : List Nat :=
  l.foldl (fun acc i => if i ∈ acc then acc else acc ++ [i]) []

/-- The parts a candidate carries (`content.parts`, empty when absent). -/
def partsOfCand (c : Candidate) : List Part :=
  (c.content.bind Content.parts).getD []

/-- The concatenation, in arrival order, of the parts delivered for index `i`
across a pair sequence. -/
def pairsConcat (ps : List (Nat × Candidate)) (i : Nat) : List Part :=
  (ps.map fun q => if q.1 = i then partsOfCand q.2 else []).flatten

/-- The last candidate delivered for index `i`. -/
def lastPairFor : List (Nat × Candidate) → Nat → Option Candidate
  | [], _ => none
  | q :: t, i =>
      match lastPairFor t i with
      | some c => some c
      | none => if q.1 = i then some q.2 else none

/-- The parts the claim prescribes for the candidate of index `i`: the
cross-chunk concatenation, or — when no chunk-level parts arrived — the parts
of the terminal content blob of the last-seen candidate for that index. -/
def specCandidateParts (ps : List (Nat × Candidate)) (i : Nat) : List Part :=
  if (pairsConcat ps i).isEmpty then
    (((lastPairFor ps i).bind Candidate.content).bind Content.parts).getD []
  else pairsConcat ps i

/-- The parts of the first candidate of a response — the ones
`update_from_response` consumes. -/
def responseParts0 (resp : Response) : List Part :=
  match resp.candidates with
  | some (c :: _) => (c.content.bind Content.parts).getD []
  | _ => []

/-- The final-answer (non-thought) segments a response contributes to the
session report. -/
def responseFinalSegments (resp : Response) : List Str :=
  (responseSegments (responseParts0 resp)).2

/-!
## Concrete scenario data for counterexamples and witnesses
-/

/-- A part whose text reports a quota problem. -/
def quotaPart : Part := { text := lit "quota exceeded" }

/-- Content carrying the quota part. -/
def quotaContent : Content := { role := some (lit "model"), parts := some [quotaPart] }

/-- A candidate carrying the quota part. -/
def quotaCand : Candidate := { index := some 0, content := some quotaContent }

/-- A single chunk whose only part reports a quota problem. -/
def quotaChunk : Response := { candidates := some [quotaCand] }

/-- An attempt that streams exactly the quota chunk. -/
def quotaFeed : AttemptFeed := .stream [quotaChunk]

/-- Content with an empty parts list. -/
def emptyContent : Content := { role := some (lit "model"), parts := some [] }

/-- A candidate with no parts. -/
def emptyCand : Candidate := { index := some 0, content := some emptyContent }

/-- A chunk delivering a candidate with no text at all. -/
def emptyChunk : Response := { candidates := some [emptyCand] }

/-- An attempt that streams exactly the empty chunk. -/
def emptyFeed : AttemptFeed := .stream [emptyChunk]

/-- A fresh session report. -/
def report0 : ScanReport := { target := lit "t", description := lit "d", start_time := 0 }

/-- The fresh controller state at the start of `run`. -/
def agentState0 : AgentState := { report := report0, rate_limit_notes := [], incomplete_response_notes := [] }

/-- The report after merging the quota response into `report0` at time 1. -/
def quotaReport1 : ScanReport :=
  { target := lit "t", description := lit "d", start_time := 0,
    end_time := some 1, final_analysis := some (lit "quota exceeded") }

/-- The report after merging the empty response into `report0` at time 1. -/
def emptyReport1 : ScanReport :=
  { target := lit "t", description := lit "d", start_time := 0, end_time := some 1 }

/-- A non-client transport error whose message holds both a rate-limit
keyword and the no-streaming-chunks marker. -/
def e1 : AttemptError :=
  { isClientError := false, code := none,
    message := lit "Service unavailable: Model returned no streaming chunks" }

/-- A genai client error whose message holds the no-streaming-chunks
marker. -/
def e2 : AttemptError :=
  { isClientError := true, code := some 400,
    message := lit "Model returned no streaming chunks" }

/-- A client error with status code 429. -/
def e429 : AttemptError :=
  { isClientError := true, code := some 429, message := lit "resource exhausted" }

/-- The content of the aggregate of two quota chunks. -/
def quotaContent2 : Content :=
  { role := some (lit "model"), parts := some [quotaPart, quotaPart] }

/-- The candidate of the aggregate of two quota chunks. -/
def quotaCand2 : Candidate := { index := some 0, content := some quotaContent2 }

/-- The aggregate of two quota chunks. -/
def quotaResp2 : Response := { candidates := some [quotaCand2] }

/-- A searchsploit environment for concrete evaluations. -/
def ssEnv1 : SsEnv :=
  { results := fun n =>
      if n = 0 then { stdout := lit "Path: /tmp/exploit.c", stderr := lit "", returncode := 0 }
      else { stdout := lit "ok", stderr := lit "", returncode := 0 }
    pathExists := fun _ => true
    jsonParses := fun _ => true
    hasObserver := true }

/-- A searchsploit mirror invocation that also test-executes the exploit. -/
def ssMirrorArgs : SsArgs :=
  { action := lit "mirror", edb_id := some (lit "12345"),
    execute_command := some (lit "echo hi") }

/-- The loop invariant of the aggregation fold, relating the buffers to the
pair sequence processed so far: the meta keys are the indices in
first-appearance order, each meta entry is the last candidate seen for its
index, and the parts buffer holds exactly the non-empty cross-chunk
concatenations. -/
def AggInvariant (ps : List (Nat × Candidate)) (st : AggState) : Prop :=
  st.candidate_meta.map Prod.fst = insertionKeys (ps.map Prod.fst) ∧
  (∀ q ∈ st.candidate_meta, lastPairFor ps q.1 = some q.2) ∧
  (∀ i, dictGet st.aggregated_parts i =
      if (pairsConcat ps i).isEmpty then none else some (pairsConcat ps i))

/-!
## Theorems
-/

/-- C2: thought-classification applies the layered rule in order (a boolean
`thought` marker decides; otherwise any non-null non-false marker value of
any type means thought; otherwise a role equal to "thought"
case-insensitively; otherwise a kind tag containing "thought"
case-insensitively; otherwise output), and the live-display classifier of
agent.py and the final-analysis extractor of reporting.py classify every
part identically under it. -/
theorem claim_C2 (p : Part) :
    _is_thought_part p = specThoughtRule p ∧
    (_resolve_thought_source p).1 = _is_thought_part p := by
  obtain ⟨text, thought, role, kind, inner⟩ := p
  cases thought with
  | null => exact ⟨rfl, rfl⟩
  | bool b => exact ⟨rfl, rfl⟩
  | obj eqFalse v =>
      cases eqFalse <;>
        simp [_is_thought_part, specThoughtRule, _resolve_thought_source,
          thoughtRoleOrKind]

/-- C10: exporting a session report to its serializable snapshot and
reloading from that snapshot preserves the command count, the final answer
text, and the token totals exactly. -/
theorem claim_C10 (r : ScanReport) :
    (loadReport (_as_serializable r)).commands.length = r.commands.length ∧
    (loadReport (_as_serializable r)).final_analysis = r.final_analysis ∧
    (loadReport (_as_serializable r)).thinking_tokens = r.thinking_tokens ∧
    (loadReport (_as_serializable r)).output_tokens = r.output_tokens ∧
    (loadReport (_as_serializable r)).total_tokens = r.total_tokens :=
  ⟨rfl, rfl, rfl, rfl, rfl⟩

/-- Recording an incomplete-response note keeps the list within the bound
of 5. -/
theorem record_incomplete_length_le (notes : List Str) (note : Str)
    (h : notes.length ≤ 5) :
    (_record_incomplete_response_note notes note).length ≤ 5 := by
  unfold _record_incomplete_response_note
  split
  · exact h
  · simp only []
    split
    · simp only [List.length_drop, List.length_append, List.length_singleton]; omega
    · next h5 => simp only [List.length_append, List.length_singleton] at h5 ⊢; omega

/-- Folding arbitrary note recordings from a within-bound start stays within
the bound. -/
theorem foldl_record_incomplete_le (l : List Str) :
    ∀ acc : List Str, acc.length ≤ 5 →
      (l.foldl _record_incomplete_response_note acc).length ≤ 5 := by
  induction l with
  | nil => intro acc h; exact h
  | cons x t ih => intro acc h; exact ih _ (record_incomplete_length_le acc x h)

/-- C9: the incomplete-response note list never exceeds 5 entries: every
recording operation preserves the bound, an overflowing append evicts the
oldest entries keeping exactly the 5 most recent, and the bound holds across
arbitrarily many recordings. -/
theorem claim_C9 :
    (∀ notes note, notes.length ≤ 5 →
        (_record_incomplete_response_note notes note).length ≤ 5) ∧
    (∀ notes note, note ∉ notes → 5 < (notes ++ [note]).length →
        _record_incomplete_response_note notes note
          = (notes ++ [note]).drop ((notes ++ [note]).length - 5)) ∧
    (∀ l : List Str, (l.foldl _record_incomplete_response_note []).length ≤ 5) := by
  refine ⟨fun notes note h => record_incomplete_length_le notes note h, ?_, ?_⟩
  · intro notes note hmem hlen
    unfold _record_incomplete_response_note
    rw [if_neg hmem, if_pos (by omega)]
  · intro l; exact foldl_record_incomplete_le l [] (by simp)

/-- Witness for C9 at concrete inputs: a sixth distinct note evicts the
oldest entry. -/
theorem claim_C9_witness :
    (_record_incomplete_response_note
        [lit "a", lit "b", lit "c", lit "d", lit "e"] (lit "f")).length ≤ 5 ∧
    _record_incomplete_response_note
        [lit "a", lit "b", lit "c", lit "d", lit "e"] (lit "f")
      = [lit "b", lit "c", lit "d", lit "e", lit "f"] ∧
    ([lit "x", lit "y"].foldl _record_incomplete_response_note []).length ≤ 5 := by
  refine ⟨claim_C9.1 _ _ (by decide), ?_, claim_C9.2.2 _⟩
  have h := claim_C9.2.1 [lit "a", lit "b", lit "c", lit "d", lit "e"] (lit "f")
      (by decide) (by decide)
  rw [h]; decide

/-- C6: aggregation over zero chunks fails with the dedicated empty-stream
error; a stream with at least one chunk never produces it; and to the retry
controller that failure is an ordinary non-client `RuntimeError`, distinct
from a transport client error. -/
theorem claim_C6 (chunks : List Response) :
    (chunks = [] → _stream_model_response chunks = .error .emptyStream) ∧
    (chunks ≠ [] → ∀ e, _stream_model_response chunks ≠ .error e) ∧
    dispatchFeed (.stream []) =
      .error { isClientError := false, code := none,
               message := lit "Model returned no streaming chunks" } := by
  refine ⟨?_, ?_, rfl⟩
  · rintro rfl; rfl
  · intro h e
    simp only [_stream_model_response]
    rw [if_neg (by simpa using h)]
    split
    · split <;> simp
    · simp

/-- Witness for C6: both implications at concrete streams. -/
theorem claim_C6_witness :
    _stream_model_response [] = .error .emptyStream ∧
    _stream_model_response [quotaChunk] ≠ .error .emptyStream := by
  constructor
  · exact (claim_C6 []).1 rfl
  · exact (claim_C6 [quotaChunk]).2.1 (by simp) .emptyStream

/-- Log appends distribute over trace concatenation. -/
theorem countLogAppends_append (a b : List ToolEvent) :
    countLogAppends (a ++ b) = countLogAppends a + countLogAppends b := by
  simp [countLogAppends, List.filter_append]

/-- Well-pairedness is closed under trace concatenation. -/
theorem wellPaired_append (hasObs : Bool) (a b : List ToolEvent)
    (ha : wellPaired hasObs a = true) (hb : wellPaired hasObs b = true) :
    wellPaired hasObs (a ++ b) = true := by
  induction a using wellPaired.induct hasObs with
  | case1 => exact hb
  | case2 tn c rest ih =>
      rw [List.cons_append]
      simp only [wellPaired] at ha ⊢
      exact ih ha
  | case3 hobs q rest2 ih =>
      subst hobs
      rw [List.cons_append, List.cons_append]
      simp [wellPaired] at ha ⊢
      exact ih ha
  | case4 p hobs q rest2 hne =>
      exact absurd ha (by subst hobs; simp [wellPaired, hne])
  | case5 p rest hobs hshape =>
      exfalso
      subst hobs
      cases rest with
      | nil => simp [wellPaired] at ha
      | cons e rest2 =>
          cases e with
          | observerEnd q => exact hshape q rest2 rfl
          | observerStart tn c => simp [wellPaired] at ha
          | logAppend q => simp [wellPaired] at ha
  | case6 p rest hobs ih =>
      rw [Bool.not_eq_true] at hobs
      subst hobs
      rw [List.cons_append]
      rw [wellPaired.eq_def] at ha
      rw [wellPaired.eq_def]
      simp only [Bool.false_eq_true, if_false] at ha ⊢
      exact ih ha
  | case7 p tail => simp [wellPaired] at ha

/-- One searchsploit subprocess run contributes exactly one log append, and
its trace is well paired. -/
theorem ssRun_trace (hasObs : Bool) (cmd : Str) (res : SsProcResult) :
    countLogAppends (ssRunSubprocess hasObs cmd res).2 = 1 ∧
    wellPaired hasObs (ssRunSubprocess hasObs cmd res).2 = true := by
  cases hasObs <;> simp [ssRunSubprocess, countLogAppends, wellPaired]

/-- One searchsploit subprocess run appends exactly one log record. -/
theorem ssRun_count (hasObs : Bool) (cmd : Str) (res : SsProcResult) :
    countLogAppends (ssRunSubprocess hasObs cmd res).2 = 1 :=
  (ssRun_trace hasObs cmd res).1

/-- One searchsploit subprocess run has a well-paired trace. -/
theorem ssRun_paired (hasObs : Bool) (cmd : Str) (res : SsProcResult) :
    wellPaired hasObs (ssRunSubprocess hasObs cmd res).2 = true :=
  (ssRun_trace hasObs cmd res).2

set_option maxHeartbeats 1000000 in
/-- The searchsploit tool appends exactly one record per underlying
subprocess execution, each append preceding the matching observer completion
call, and invocations rejected during argument validation append nothing. -/
theorem ss_lookup_spec (env : SsEnv) (args : SsArgs) :
    countLogAppends (searchsploit_lookup env args).2.1
      = (searchsploit_lookup env args).2.2 ∧
    wellPaired env.hasObserver (searchsploit_lookup env args).2.1 = true ∧
    (∀ msg, (searchsploit_lookup env args).1 = .error msg →
        (searchsploit_lookup env args).2.1 = [] ∧
        (searchsploit_lookup env args).2.2 = 0) := by
  simp only [searchsploit_lookup]
  repeat' split
  all_goals refine ⟨?_, ?_, ?_⟩
  all_goals
    first
    | rfl
    | exact ssRun_count _ _ _
    | exact ssRun_paired _ _ _
    | exact wellPaired_append _ _ _ (ssRun_paired _ _ _) (ssRun_paired _ _ _)
    | (simp [countLogAppends_append, ssRun_count]; done)
    | (intro msg h; exact ⟨rfl, rfl⟩)
    | (intro msg h; exfalso; simp at h)

/-- C7(amended): the system-command tool appends exactly one command-log
record per invocation — success, failure or timeout — in a well-paired trace
(append before the observer completion call); the searchsploit tool appends
exactly one record per underlying subprocess execution, always log-append
before the matching observer completion call, and an invocation rejected
during argument validation raises without appending anything; and one log
append adds exactly one record to the session command log. -/
theorem claim_C7_amended :
    (∀ (hasObs : Bool) (cmd : Str) (timeout : Nat) (res : SubprocOutcome),
        countLogAppends (execute_system_command_impl hasObs cmd timeout res).2 = 1 ∧
        wellPaired hasObs (execute_system_command_impl hasObs cmd timeout res).2 = true) ∧
    (∀ (env : SsEnv) (args : SsArgs),
        countLogAppends (searchsploit_lookup env args).2.1
          = (searchsploit_lookup env args).2.2 ∧
        wellPaired env.hasObserver (searchsploit_lookup env args).2.1 = true ∧
        (∀ msg, (searchsploit_lookup env args).1 = .error msg →
            (searchsploit_lookup env args).2.1 = [] ∧
            (searchsploit_lookup env args).2.2 = 0)) ∧
    (∀ (r : ScanReport) (p : ToolPayload),
        (log_command r p).commands.length = r.commands.length + 1) := by
  refine ⟨?_, ss_lookup_spec, ?_⟩
  · intro hasObs cmd timeout res
    cases res <;> cases hasObs <;>
      simp [execute_system_command_impl, countLogAppends, wellPaired]
  · intro r p; simp [log_command]

/-- C7 counterexample: a searchsploit invocation with neither a query nor a
CVE raises a `ValueError` and appends nothing to the command log (so this
invocation has no record), while a single mirror invocation with an
`execute_command` appends two records — both refuting one record per
invocation. -/
theorem claim_C7_counterexample :
    (searchsploit_lookup ssEnv1 { action := lit "search" }).2.1 = [] ∧
    (searchsploit_lookup ssEnv1 { action := lit "search" }).1
      = .error (lit "Either " ++ sq ++ lit "query" ++ sq ++ lit " or " ++ sq ++
          lit "cve_id" ++ sq ++ lit " is required for search") ∧
    countLogAppends (searchsploit_lookup ssEnv1 ssMirrorArgs).2.1 = 2 := by
  refine ⟨rfl, rfl, ?_⟩
  decide

/-- Witness for C7(amended) at concrete invocations. -/
theorem claim_C7_witness :
    countLogAppends (execute_system_command_impl true (lit "echo hi") 30
        (.completed (lit "hi") (lit "") 0)).2 = 1 ∧
    countLogAppends (searchsploit_lookup ssEnv1
        { action := lit "search", query := some (lit "apache") }).2.1
      = (searchsploit_lookup ssEnv1
        { action := lit "search", query := some (lit "apache") }).2.2 ∧
    (searchsploit_lookup ssEnv1 { action := lit "search" }).2.1 = [] := by
  refine ⟨(claim_C7_amended.1 true (lit "echo hi") 30 _).1,
         (claim_C7_amended.2.1 ssEnv1 _).1,
         ((claim_C7_amended.2.1 ssEnv1 { action := lit "search" }).2.2
           (lit "Either " ++ sq ++ lit "query" ++ sq ++ lit " or " ++ sq ++
             lit "cve_id" ++ sq ++ lit " is required for search") rfl).1⟩

/-!
## Controller step lemmas
-/

/-- A rate-limited successful response: merge, note, clear end time,
advance. -/
theorem runOneModel_rateLimited (model : Str) (now attempt0 : Nat)
    (st : AgentState) (lastExc : Option AttemptError) (feed0 : AttemptFeed)
    (rest : List AttemptFeed) (resp : Response) (report1 : ScanReport)
    (hfeed : dispatchFeed feed0 = .ok resp)
    (hupd : update_from_response st.report now resp = (report1, none))
    (hrl : _response_indicates_rate_limit resp = true) :
    runOneModel model now attempt0 st lastExc (feed0 :: rest)
      = ⟨.advance, rateLimitAdvanceState st model report1, lastExc, rest,
         [(model, attempt0 + 1)]⟩ := by
  simp only [runOneModel, hfeed, hupd, hrl, if_true]
  rfl

/-- A first incomplete successful response: merge, note, clear end time,
retry the same model. -/
theorem runOneModel_incompleteContinue (model : Str) (now : Nat)
    (st : AgentState) (lastExc : Option AttemptError) (feed0 : AttemptFeed)
    (rest : List AttemptFeed) (resp : Response) (report1 : ScanReport)
    (hfeed : dispatchFeed feed0 = .ok resp)
    (hupd : update_from_response st.report now resp = (report1, none))
    (hrl : _response_indicates_rate_limit resp = false)
    (hfin : optStrTruthy report1.final_analysis = false) :
    runOneModel model now 0 st lastExc (feed0 :: rest)
      = { runOneModel model now 1 (incompleteRetryState st model report1 1) lastExc rest
          with attempts := (model, 1) ::
            (runOneModel model now 1 (incompleteRetryState st model report1 1)
              lastExc rest).attempts } := by
  simp only [runOneModel, hfeed, hupd, hrl, hfin, INCOMPLETE_RESPONSE_RETRIES]
  simp [incompleteRetryState]

/-- A second incomplete successful response: the retry ceiling is reached,
record the exhaustion note and advance. -/
theorem runOneModel_incompleteExhaust (model : Str) (now : Nat)
    (st : AgentState) (lastExc : Option AttemptError) (feed0 : AttemptFeed)
    (rest : List AttemptFeed) (resp : Response) (report1 : ScanReport)
    (hfeed : dispatchFeed feed0 = .ok resp)
    (hupd : update_from_response st.report now resp = (report1, none))
    (hrl : _response_indicates_rate_limit resp = false)
    (hfin : optStrTruthy report1.final_analysis = false) :
    runOneModel model now 1 st lastExc (feed0 :: rest)
      = ⟨.advance, incompleteExhaustState st model report1 2, lastExc, rest,
         [(model, 2)]⟩ := by
  simp only [runOneModel, hfeed, hupd, hrl, hfin, INCOMPLETE_RESPONSE_RETRIES]
  simp [incompleteExhaustState, incompleteRetryState]

/-- A client error classified as a rate limit: note and advance. -/
theorem runOneModel_clientRateLimit (model : Str) (now attempt0 : Nat)
    (st : AgentState) (lastExc : Option AttemptError) (e : AttemptError)
    (rest : List AttemptFeed)
    (hc : e.isClientError = true)
    (hr : _is_rate_limit_error e.code (toLowerS e.message) = true) :
    runOneModel model now attempt0 st lastExc (.raise e :: rest)
      = ⟨.advance, rateLimitErrorState st model e, some e, rest,
         [(model, attempt0 + 1)]⟩ := by
  simp only [runOneModel, dispatchFeed, hc, hr, if_true]
  rfl

/-- A client error not classified as a rate limit propagates. -/
theorem runOneModel_clientRaise (model : Str) (now attempt0 : Nat)
    (st : AgentState) (lastExc : Option AttemptError) (e : AttemptError)
    (rest : List AttemptFeed)
    (hc : e.isClientError = true)
    (hr : _is_rate_limit_error e.code (toLowerS e.message) = false) :
    runOneModel model now attempt0 st lastExc (.raise e :: rest)
      = ⟨.raised e, st, some e, rest, [(model, attempt0 + 1)]⟩ := by
  simp only [runOneModel, dispatchFeed, hc, hr, if_true]
  rfl

/-- A first no-streaming-chunks failure: note, clear end time, retry the
same model. -/
theorem runOneModel_chunksContinue (model : Str) (now : Nat)
    (st : AgentState) (lastExc : Option AttemptError) (e : AttemptError)
    (rest : List AttemptFeed)
    (hc : e.isClientError = false)
    (hm : containsS (toLowerS e.message) (lit "no streaming chunks") = true) :
    runOneModel model now 0 st lastExc (.raise e :: rest)
      = { runOneModel model now 1 (noChunksRetryState st model 1) (some e) rest
          with attempts := (model, 1) ::
            (runOneModel model now 1 (noChunksRetryState st model 1)
              (some e) rest).attempts } := by
  simp only [runOneModel, dispatchFeed, hc, hm, INCOMPLETE_RESPONSE_RETRIES]
  simp [noChunksRetryState]

/-- A second no-streaming-chunks failure: exhaustion note, advance. -/
theorem runOneModel_chunksExhaust (model : Str) (now : Nat)
    (st : AgentState) (lastExc : Option AttemptError) (e : AttemptError)
    (rest : List AttemptFeed)
    (hc : e.isClientError = false)
    (hm : containsS (toLowerS e.message) (lit "no streaming chunks") = true) :
    runOneModel model now 1 st lastExc (.raise e :: rest)
      = ⟨.advance, noChunksExhaustState st model 2, some e, rest, [(model, 2)]⟩ := by
  simp only [runOneModel, dispatchFeed, hc, hm, INCOMPLETE_RESPONSE_RETRIES]
  simp [noChunksExhaustState, noChunksRetryState]

/-- A generic error with a rate-limit keyword: note and advance. -/
theorem runOneModel_genericRate (model : Str) (now attempt0 : Nat)
    (st : AgentState) (lastExc : Option AttemptError) (e : AttemptError)
    (rest : List AttemptFeed)
    (hc : e.isClientError = false)
    (hm : containsS (toLowerS e.message) (lit "no streaming chunks") = false)
    (hr : _is_rate_limit_error none (toLowerS e.message) = true) :
    runOneModel model now attempt0 st lastExc (.raise e :: rest)
      = ⟨.advance, rateLimitErrorState st model e, some e, rest,
         [(model, attempt0 + 1)]⟩ := by
  simp only [runOneModel, dispatchFeed, hc, hm, hr]
  rfl

/-- Any other generic error propagates. -/
theorem runOneModel_genericRaise (model : Str) (now attempt0 : Nat)
    (st : AgentState) (lastExc : Option AttemptError) (e : AttemptError)
    (rest : List AttemptFeed)
    (hc : e.isClientError = false)
    (hm : containsS (toLowerS e.message) (lit "no streaming chunks") = false)
    (hr : _is_rate_limit_error none (toLowerS e.message) = false) :
    runOneModel model now attempt0 st lastExc (.raise e :: rest)
      = ⟨.raised e, st, some e, rest, [(model, attempt0 + 1)]⟩ := by
  simp only [runOneModel, dispatchFeed, hc, hm, hr]
  rfl

/-- Shape of one model's attempt list: empty feed, a single terminal
attempt, or one attempt followed by a same-model rerun on the remaining
feed (only below the retry ceiling). -/
theorem runOneModel_attempts_shape (model : Str) (now : Nat)
    (feed : List AttemptFeed) (a : Nat) (st : AgentState)
    (le : Option AttemptError) :
    (runOneModel model now a st le feed).attempts = [] ∨
    (runOneModel model now a st le feed).attempts = [(model, a + 1)] ∨
    (a + 1 < INCOMPLETE_RESPONSE_RETRIES ∧ ∃ st1 le1,
      (runOneModel model now a st le feed).attempts
        = (model, a + 1) ::
          (runOneModel model now (a + 1) st1 le1 feed.tail).attempts) := by
  cases feed with
  | nil => left; rfl
  | cons f rest =>
      simp only [runOneModel]
      repeat' split
      all_goals
        first
        | (left; rfl)
        | (right; left; rfl)
        | (right; right; exact ⟨‹_›, _, _, rfl⟩)

/-- Every attempt dispatched by one model's loop names that model. -/
theorem runOneModel_attempts_model (model : Str) (now : Nat) :
    ∀ (feed : List AttemptFeed) (a : Nat) (st : AgentState)
      (le : Option AttemptError) (q : Str × Nat),
      q ∈ (runOneModel model now a st le feed).attempts → q.1 = model := by
  intro feed
  induction feed with
  | nil => intro a st le q h; simp [runOneModel] at h
  | cons f rest ih =>
      intro a st le q h
      rcases runOneModel_attempts_shape model now (f :: rest) a st le with
        h0 | h1 | ⟨hlt, st1, le1, heq⟩
      · rw [h0] at h; simp at h
      · rw [h1] at h; simp at h; rw [h]
      · rw [heq] at h
        rcases List.mem_cons.mp h with rfl | hmem
        · rfl
        · exact ih (a + 1) st1 le1 q hmem

/-- From an attempt counter of at least 1 a model gets at most one more
attempt. -/
theorem runOneModel_attempts_len_ge1 (model : Str) (now : Nat)
    (feed : List AttemptFeed) (a : Nat) (st : AgentState)
    (le : Option AttemptError) (ha : 1 ≤ a) :
    (runOneModel model now a st le feed).attempts.length ≤ 1 := by
  rcases runOneModel_attempts_shape model now feed a st le with
    h0 | h1 | ⟨hlt, st1, le1, heq⟩
  · rw [h0]; simp
  · rw [h1]; simp
  · exfalso; unfold INCOMPLETE_RESPONSE_RETRIES at hlt; omega

/-- One model receives at most two attempts. -/
theorem runOneModel_attempts_len (model : Str) (now : Nat)
    (feed : List AttemptFeed) (st : AgentState) (le : Option AttemptError) :
    (runOneModel model now 0 st le feed).attempts.length ≤ 2 := by
  rcases runOneModel_attempts_shape model now feed 0 st le with
    h0 | h1 | ⟨hlt, st1, le1, heq⟩
  · rw [h0]; simp
  · rw [h1]; simp
  · rw [heq]
    have := runOneModel_attempts_len_ge1 model now feed.tail (0 + 1) st1 le1 (by omega)
    simp only [List.length_cons]
    omega

/-- Every attempt the controller dispatches names a model of the remaining
list. -/
theorem runModels_attempts_mem (now : Nat) :
    ∀ (models : List Str) (st : AgentState) (le : Option AttemptError)
      (feed : List AttemptFeed) (q : Str × Nat),
      q ∈ (runModels now models st le feed).attempts → q.1 ∈ models := by
  intro models
  induction models with
  | nil =>
      intro st le feed q h
      cases le <;> simp [runModels] at h
  | cons m more ih =>
      intro st le feed q h
      simp only [runModels] at h
      split at h
      · rcases List.mem_append.mp h with hl | hr
        · rw [runOneModel_attempts_model m now feed 0 st le q hl]
          exact List.mem_cons_self m more
        · exact List.mem_cons_of_mem m (ih _ _ _ q hr)
      · rw [runOneModel_attempts_model m now feed 0 st le q h]
        exact List.mem_cons_self m more
      · rw [runOneModel_attempts_model m now feed 0 st le q h]
        exact List.mem_cons_self m more
      · rw [runOneModel_attempts_model m now feed 0 st le q h]
        exact List.mem_cons_self m more

/-- A response whose text signals a rate limit has a non-empty candidate
list. -/
theorem rl_candidates_shape (resp : Response)
    (h : _response_indicates_rate_limit resp = true) :
    ∃ c cs, resp.candidates = some (c :: cs) := by
  unfold _response_indicates_rate_limit at h
  cases hc : resp.candidates with
  | none => rw [hc] at h; simp at h
  | some l =>
      cases l with
      | nil => rw [hc] at h; simp at h
      | cons c cs => exact ⟨c, cs, rfl⟩

/-- Field-level description of the merge performed by
`update_from_response` on a response with at least one candidate. -/
theorem update_fields (r : ScanReport) (now : Nat) (resp : Response)
    (c : Candidate) (cs : List Candidate)
    (hc : resp.candidates = some (c :: cs)) :
    (update_from_response r now resp).2 = none ∧
    (update_from_response r now resp).1.end_time = some now ∧
    (update_from_response r now resp).1.thinking_summary
      = r.thinking_summary ++ (responseSegments (responseParts0 resp)).1 ∧
    (update_from_response r now resp).1.final_analysis
      = (if (responseSegments (responseParts0 resp)).2.isEmpty
         then r.final_analysis
         else some (joinWithS (lit "\n") (responseSegments (responseParts0 resp)).2)) ∧
    (∀ u, resp.usage_metadata = some u →
        (update_from_response r now resp).1.thinking_tokens = u.thoughts_token_count ∧
        (update_from_response r now resp).1.output_tokens = u.candidates_token_count ∧
        (update_from_response r now resp).1.total_tokens = u.total_token_count) := by
  simp only [update_from_response, responseParts0, hc]
  cases husage : resp.usage_metadata <;>
    cases hE : (responseSegments ((c.content.bind Content.parts).getD [])).2.isEmpty <;>
      simp [husage, hE]

/-- C8: within the retry loop, a successful network call's aggregated
response is merged into the session report (thinking log appended, final
answer overwritten when final text exists, token usage and end time set)
before classification; a response then classified rate-limited therefore
still mutates the thinking log and final answer, and afterwards only the
end time is reset to none (plus the agent-level rate-limit note). -/
theorem claim_C8 (model : Str) (now attempt0 : Nat) (st : AgentState)
    (lastExc : Option AttemptError) (feed0 : AttemptFeed)
    (rest : List AttemptFeed) (resp : Response) (report1 : ScanReport)
    (hfeed : dispatchFeed feed0 = .ok resp)
    (hupd : update_from_response st.report now resp = (report1, none))
    (hrl : _response_indicates_rate_limit resp = true) :
    runOneModel model now attempt0 st lastExc (feed0 :: rest)
      = ⟨.advance, rateLimitAdvanceState st model report1, lastExc, rest,
         [(model, attempt0 + 1)]⟩ ∧
    (rateLimitAdvanceState st model report1).report
      = { report1 with end_time := none } ∧
    report1.end_time = some now ∧
    report1.thinking_summary
      = st.report.thinking_summary ++ (responseSegments (responseParts0 resp)).1 ∧
    report1.final_analysis
      = (if (responseSegments (responseParts0 resp)).2.isEmpty
         then st.report.final_analysis
         else some (joinWithS (lit "\n") (responseSegments (responseParts0 resp)).2)) ∧
    (∀ u, resp.usage_metadata = some u →
        report1.thinking_tokens = u.thoughts_token_count ∧
        report1.output_tokens = u.candidates_token_count ∧
        report1.total_tokens = u.total_token_count) := by
  obtain ⟨c, cs, hc⟩ := rl_candidates_shape resp hrl
  have hflds := update_fields st.report now resp c cs hc
  have hr1 : report1 = (update_from_response st.report now resp).1 := by
    rw [hupd]
  refine ⟨runOneModel_rateLimited model now attempt0 st lastExc feed0 rest resp
    report1 hfeed hupd hrl, rfl, ?_, ?_, ?_, ?_⟩
  · rw [hr1]; exact hflds.2.1
  · rw [hr1]; exact hflds.2.2.1
  · rw [hr1]; exact hflds.2.2.2.1
  · rw [hr1]; exact hflds.2.2.2.2

/-- Witness for C8 at the concrete quota scenario. -/
theorem claim_C8_witness :
    runOneModel (lit "A") 1 0 agentState0 none [quotaFeed]
      = ⟨.advance, rateLimitAdvanceState agentState0 (lit "A") quotaReport1,
         none, [], [(lit "A", 1)]⟩ ∧
    quotaReport1.end_time = some 1 :=
  ⟨(claim_C8 (lit "A") 1 0 agentState0 none quotaFeed [] quotaChunk quotaReport1
      rfl rfl rfl).1,
   (claim_C8 (lit "A") 1 0 agentState0 none quotaFeed [] quotaChunk quotaReport1
      rfl rfl rfl).2.2.1⟩

/-- A freshly recorded rate-limit note is in the note list. -/
theorem rateLimitNote_mem_record (notes : List Str) (model : Str)
    (d : Option Str) :
    rateLimitNote model d ∈ _record_rate_limit_note notes model d := by
  unfold _record_rate_limit_note
  by_cases h : rateLimitNote model d ∈ notes <;> simp [h]

/-- C3(amended): a successful response whose text carries a rate-limit
keyword makes the controller record a deduplicated note naming that model
and end that model's inner loop immediately — whichever of its attempts the
response arrives on — advancing to the next entry of the list; the remaining
attempts involve only the later entries, so the controller never returns to
an earlier position, and a model that does not occur again later in the list
is never attempted again — a model is re-attempted only if the
caller-supplied list itself repeats it. -/
theorem claim_C3_amended :
    (∀ (notes : List Str) (model : Str) (d : Option Str),
        rateLimitNote model d ∈ notes →
        _record_rate_limit_note notes model d = notes) ∧
    (∀ (model : Str) (d : Str),
        rateLimitNote model (some d)
          = lit "Model " ++ sq ++ model ++ sq ++
            lit " hit a rate/availability limit" ++ lit ": " ++ d) ∧
    (∀ (model : Str) (now attempt0 : Nat) (st : AgentState)
        (lastExc : Option AttemptError) (feed0 : AttemptFeed)
        (rest : List AttemptFeed) (resp : Response) (report1 : ScanReport),
      dispatchFeed feed0 = .ok resp →
      update_from_response st.report now resp = (report1, none) →
      _response_indicates_rate_limit resp = true →
      runOneModel model now attempt0 st lastExc (feed0 :: rest)
        = ⟨.advance, rateLimitAdvanceState st model report1, lastExc, rest,
           [(model, attempt0 + 1)]⟩) ∧
    (∀ (model : Str) (more : List Str) (st : AgentState)
        (lastExc : Option AttemptError) (now : Nat) (feed0 : AttemptFeed)
        (rest : List AttemptFeed) (resp : Response) (report1 : ScanReport),
      dispatchFeed feed0 = .ok resp →
      update_from_response st.report now resp = (report1, none) →
      _response_indicates_rate_limit resp = true →
      (runModels now (model :: more) st lastExc (feed0 :: rest)).attempts
          = (model, 1) ::
            (runModels now more (rateLimitAdvanceState st model report1)
              lastExc rest).attempts ∧
      (runModels now (model :: more) st lastExc (feed0 :: rest)).result
          = (runModels now more (rateLimitAdvanceState st model report1)
              lastExc rest).result ∧
      rateLimitNote model (some (lit "Model reported rate limit signal in response"))
          ∈ (rateLimitAdvanceState st model report1).rate_limit_notes ∧
      (∀ q ∈ (runModels now more (rateLimitAdvanceState st model report1)
          lastExc rest).attempts, q.1 ∈ more) ∧
      (model ∉ more →
        ∀ q ∈ (runModels now more (rateLimitAdvanceState st model report1)
          lastExc rest).attempts, q.1 ≠ model)) := by
  refine ⟨?_, ?_, ?_, ?_⟩
  · intro notes model d hmem
    unfold _record_rate_limit_note
    rw [if_pos hmem]
  · intro model d
    simp [rateLimitNote, List.append_assoc]
  · intro model now attempt0 st lastExc feed0 rest resp report1 hfeed hupd hrl
    exact runOneModel_rateLimited model now attempt0 st lastExc feed0 rest resp
      report1 hfeed hupd hrl
  · intro model more st lastExc now feed0 rest resp report1 hfeed hupd hrl
    have hone := runOneModel_rateLimited model now 0 st lastExc feed0 rest resp
      report1 hfeed hupd hrl
    refine ⟨?_, ?_, rateLimitNote_mem_record st.rate_limit_notes model _, ?_, ?_⟩
    · simp only [runModels, hone]
      simp
    · simp only [runModels, hone]
    · intro q hq
      exact runModels_attempts_mem now more _ lastExc rest q hq
    · intro hnot q hq heq
      exact hnot (heq ▸ runModels_attempts_mem now more _ lastExc rest q hq)

/-- C3 counterexample: with the caller-supplied list `["A", "A"]` and a
first response signalling a rate limit, the controller attempts model
`"A"` again — the claim's "the same model is never attempted again within
the run" fails on lists that repeat a model. -/
theorem claim_C3_counterexample :
    _response_indicates_rate_limit quotaChunk = true ∧
    dispatchFeed quotaFeed = .ok quotaChunk ∧
    (runAgent [lit "A", lit "A"] report0 [] 1 [quotaFeed, quotaFeed]).attempts
      = [(lit "A", 1), (lit "A", 1)] :=
  ⟨by decide, rfl, by decide⟩

/-- Witness for C3(amended) at the concrete quota scenario, exercising the
advance on a second attempt, the note, and the never-again consequence for a
duplicate-free list. -/
theorem claim_C3_witness :
    runOneModel (lit "A") 1 1 agentState0 none [quotaFeed]
        = ⟨.advance, rateLimitAdvanceState agentState0 (lit "A") quotaReport1,
           none, [], [(lit "A", 2)]⟩ ∧
    (runModels 1 [lit "A", lit "B"] agentState0 none [quotaFeed]).attempts
        = (lit "A", 1) ::
          (runModels 1 [lit "B"]
            (rateLimitAdvanceState agentState0 (lit "A") quotaReport1)
            none []).attempts ∧
    rateLimitNote (lit "A") (some (lit "Model reported rate limit signal in response"))
        ∈ (rateLimitAdvanceState agentState0 (lit "A") quotaReport1).rate_limit_notes ∧
    (∀ q ∈ (runModels 1 [lit "B"]
        (rateLimitAdvanceState agentState0 (lit "A") quotaReport1)
        none []).attempts, q.1 ≠ lit "A") :=
  ⟨claim_C3_amended.2.2.1 (lit "A") 1 1 agentState0 none quotaFeed []
      quotaChunk quotaReport1 rfl rfl rfl,
   (claim_C3_amended.2.2.2 (lit "A") [lit "B"] agentState0 none 1 quotaFeed []
      quotaChunk quotaReport1 rfl rfl rfl).1,
   (claim_C3_amended.2.2.2 (lit "A") [lit "B"] agentState0 none 1 quotaFeed []
      quotaChunk quotaReport1 rfl rfl rfl).2.2.1,
   (claim_C3_amended.2.2.2 (lit "A") [lit "B"] agentState0 none 1 quotaFeed []
      quotaChunk quotaReport1 rfl rfl rfl).2.2.2.2 (by decide)⟩

/-- C4(amended): the incomplete-response condition is judged on the session
report's accumulated final-answer text after the merge (which coincides with
the response's own final text whenever no earlier attempt recorded any):
when it is empty the controller records an incomplete-response note, clears
the completion time and re-attempts the same model; a second such response
reaches the ceiling of exactly 2 attempts, records the exhaustion note and
advances; and one model never receives more than 2 attempts. -/
theorem claim_C4_amended :
    (∀ (model : Str) (now : Nat) (st : AgentState)
        (lastExc : Option AttemptError) (feed0 : AttemptFeed)
        (rest : List AttemptFeed) (resp : Response) (report1 : ScanReport),
      dispatchFeed feed0 = .ok resp →
      update_from_response st.report now resp = (report1, none) →
      _response_indicates_rate_limit resp = false →
      optStrTruthy report1.final_analysis = false →
      runOneModel model now 0 st lastExc (feed0 :: rest)
        = { runOneModel model now 1 (incompleteRetryState st model report1 1)
              lastExc rest
            with attempts := (model, 1) ::
              (runOneModel model now 1 (incompleteRetryState st model report1 1)
                lastExc rest).attempts }) ∧
    (∀ (model : Str) (now : Nat) (st : AgentState)
        (lastExc : Option AttemptError) (feed0 : AttemptFeed)
        (rest : List AttemptFeed) (resp : Response) (report1 : ScanReport),
      dispatchFeed feed0 = .ok resp →
      update_from_response st.report now resp = (report1, none) →
      _response_indicates_rate_limit resp = false →
      optStrTruthy report1.final_analysis = false →
      runOneModel model now 1 st lastExc (feed0 :: rest)
        = ⟨.advance, incompleteExhaustState st model report1 2, lastExc, rest,
           [(model, 2)]⟩) ∧
    (∀ (model : Str) (now : Nat) (feed : List AttemptFeed) (st : AgentState)
        (le : Option AttemptError),
      (runOneModel model now 0 st le feed).attempts.length ≤ 2) := by
  refine ⟨?_, ?_, ?_⟩
  · intro model now st lastExc feed0 rest resp report1 hfeed hupd hrl hfin
    exact runOneModel_incompleteContinue model now st lastExc feed0 rest resp
      report1 hfeed hupd hrl hfin
  · intro model now st lastExc feed0 rest resp report1 hfeed hupd hrl hfin
    exact runOneModel_incompleteExhaust model now st lastExc feed0 rest resp
      report1 hfeed hupd hrl hfin
  · intro model now feed st le
    exact runOneModel_attempts_len model now feed st le

/-- C4 counterexample: after model A's rate-limited response has set the
session's final-answer text, model B's successful response carries no
final-answer text at all, yet the controller records no incomplete note,
does not re-attempt B, and returns B's response as the success — the claim's
per-response reading ("a response with no final-answer text is retried")
fails. -/
theorem claim_C4_counterexample :
    dispatchFeed emptyFeed = .ok emptyChunk ∧
    responseFinalSegments emptyChunk = [] ∧
    (runAgent [lit "A", lit "B"] report0 [] 1 [quotaFeed, emptyFeed]).result
      = .success emptyChunk ∧
    (runAgent [lit "A", lit "B"] report0 [] 1 [quotaFeed, emptyFeed]).attempts
      = [(lit "A", 1), (lit "B", 1)] ∧
    ((runAgent [lit "A", lit "B"] report0 [] 1
        [quotaFeed, emptyFeed]).state).incomplete_response_notes = [] :=
  ⟨rfl, rfl, rfl, by decide, rfl⟩

/-- Witness for C4(amended) at the concrete empty-response scenario. -/
theorem claim_C4_witness :
    runOneModel (lit "A") 1 0 agentState0 none [emptyFeed, emptyFeed]
      = { runOneModel (lit "A") 1 1
            (incompleteRetryState agentState0 (lit "A") emptyReport1 1)
            none [emptyFeed]
          with attempts := (lit "A", 1) ::
            (runOneModel (lit "A") 1 1
              (incompleteRetryState agentState0 (lit "A") emptyReport1 1)
              none [emptyFeed]).attempts } ∧
    ((runOneModel (lit "A") 1 0 agentState0 none
        [emptyFeed, emptyFeed]).attempts).length ≤ 2 :=
  ⟨claim_C4_amended.1 (lit "A") 1 agentState0 none emptyFeed [emptyFeed]
      emptyChunk emptyReport1 rfl rfl rfl rfl,
   claim_C4_amended.2.2 (lit "A") 1 [emptyFeed, emptyFeed] agentState0 none⟩

/-- C5(amended): transport errors raised by the genai client library are
checked only for the rate-limit condition (status 429/503 or a message
keyword): note and advance when it holds, immediate propagation otherwise —
the "no streaming chunks" rule does not apply to them.  All other errors are
checked first for "no streaming chunks" (incomplete-style same-model retry
up to the ceiling of 2, then advance with an exhaustion note), then for the
message keywords (note and advance), and otherwise propagate immediately
without attempting further models. -/
theorem claim_C5_amended :
    (∀ (model : Str) (now a : Nat) (st : AgentState) (le : Option AttemptError)
        (e : AttemptError) (rest : List AttemptFeed),
      e.isClientError = true →
      _is_rate_limit_error e.code (toLowerS e.message) = true →
      runOneModel model now a st le (.raise e :: rest)
        = ⟨.advance, rateLimitErrorState st model e, some e, rest,
           [(model, a + 1)]⟩) ∧
    (∀ (model : Str) (now a : Nat) (st : AgentState) (le : Option AttemptError)
        (e : AttemptError) (rest : List AttemptFeed),
      e.isClientError = true →
      _is_rate_limit_error e.code (toLowerS e.message) = false →
      runOneModel model now a st le (.raise e :: rest)
        = ⟨.raised e, st, some e, rest, [(model, a + 1)]⟩) ∧
    (∀ (model : Str) (now : Nat) (st : AgentState) (le : Option AttemptError)
        (e : AttemptError) (rest : List AttemptFeed),
      e.isClientError = false →
      containsS (toLowerS e.message) (lit "no streaming chunks") = true →
      runOneModel model now 0 st le (.raise e :: rest)
        = { runOneModel model now 1 (noChunksRetryState st model 1) (some e) rest
            with attempts := (model, 1) ::
              (runOneModel model now 1 (noChunksRetryState st model 1)
                (some e) rest).attempts }) ∧
    (∀ (model : Str) (now : Nat) (st : AgentState) (le : Option AttemptError)
        (e : AttemptError) (rest : List AttemptFeed),
      e.isClientError = false →
      containsS (toLowerS e.message) (lit "no streaming chunks") = true →
      runOneModel model now 1 st le (.raise e :: rest)
        = ⟨.advance, noChunksExhaustState st model 2, some e, rest,
           [(model, 2)]⟩) ∧
    (∀ (model : Str) (now a : Nat) (st : AgentState) (le : Option AttemptError)
        (e : AttemptError) (rest : List AttemptFeed),
      e.isClientError = false →
      containsS (toLowerS e.message) (lit "no streaming chunks") = false →
      _is_rate_limit_error none (toLowerS e.message) = true →
      runOneModel model now a st le (.raise e :: rest)
        = ⟨.advance, rateLimitErrorState st model e, some e, rest,
           [(model, a + 1)]⟩) ∧
    (∀ (model : Str) (now a : Nat) (st : AgentState) (le : Option AttemptError)
        (e : AttemptError) (rest : List AttemptFeed),
      e.isClientError = false →
      containsS (toLowerS e.message) (lit "no streaming chunks") = false →
      _is_rate_limit_error none (toLowerS e.message) = false →
      runOneModel model now a st le (.raise e :: rest)
        = ⟨.raised e, st, some e, rest, [(model, a + 1)]⟩) ∧
    (∀ (model : Str) (more : List Str) (now : Nat) (st : AgentState)
        (le : Option AttemptError) (e : AttemptError) (rest : List AttemptFeed),
      e.isClientError = true →
      _is_rate_limit_error e.code (toLowerS e.message) = false →
      (runModels now (model :: more) st le (.raise e :: rest)).result = .raised e ∧
      (runModels now (model :: more) st le (.raise e :: rest)).attempts
        = [(model, 1)]) := by
  refine ⟨?_, ?_, ?_, ?_, ?_, ?_, ?_⟩
  · intro model now a st le e rest hc hr
    exact runOneModel_clientRateLimit model now a st le e rest hc hr
  · intro model now a st le e rest hc hr
    exact runOneModel_clientRaise model now a st le e rest hc hr
  · intro model now st le e rest hc hm
    exact runOneModel_chunksContinue model now st le e rest hc hm
  · intro model now st le e rest hc hm
    exact runOneModel_chunksExhaust model now st le e rest hc hm
  · intro model now a st le e rest hc hm hr
    exact runOneModel_genericRate model now a st le e rest hc hm hr
  · intro model now a st le e rest hc hm hr
    exact runOneModel_genericRaise model now a st le e rest hc hm hr
  · intro model more now st le e rest hc hr
    have hone := runOneModel_clientRaise model now 0 st le e rest hc hr
    constructor
    · simp only [runModels, hone]
    · simp only [runModels, hone]

/-- C5 counterexample: a non-client error whose message holds both
"unavailable" (a rate-limit keyword) and "no streaming chunks" is handled as
incomplete — the same model is retried and no rate-limit note is recorded —
although the claim's first rule prescribes a rate-limit note and an advance;
and a client error whose message holds "no streaming chunks" propagates
immediately although the claim prescribes incomplete-style retry. -/
theorem claim_C5_counterexample :
    containsS (toLowerS e1.message) (lit "unavailable") = true ∧
    e1.isClientError = false ∧
    ((runAgent [lit "A"] report0 [] 1
        [.raise e1, .raise e1]).state).rate_limit_notes = [] ∧
    (runAgent [lit "A"] report0 [] 1 [.raise e1, .raise e1]).attempts
      = [(lit "A", 1), (lit "A", 2)] ∧
    (runAgent [lit "A"] report0 [] 1 [.raise e1, .raise e1]).result
      = .raised e1 ∧
    e2.isClientError = true ∧
    containsS (toLowerS e2.message) (lit "no streaming chunks") = true ∧
    (runAgent [lit "A", lit "B"] report0 [] 1 [.raise e2, emptyFeed]).result
      = .raised e2 ∧
    (runAgent [lit "A", lit "B"] report0 [] 1 [.raise e2, emptyFeed]).attempts
      = [(lit "A", 1)] :=
  ⟨by decide, rfl, rfl, by decide, rfl, rfl, by decide, rfl, by decide⟩

/-- Witness for C5(amended) at concrete errors. -/
theorem claim_C5_witness :
    runOneModel (lit "A") 1 0 agentState0 none [.raise e429]
      = ⟨.advance, rateLimitErrorState agentState0 (lit "A") e429, some e429, [],
         [(lit "A", 1)]⟩ ∧
    runOneModel (lit "A") 1 1 agentState0 none [.raise e1]
      = ⟨.advance, noChunksExhaustState agentState0 (lit "A") 2, some e1, [],
         [(lit "A", 2)]⟩ :=
  ⟨claim_C5_amended.1 (lit "A") 1 0 agentState0 none e429 [] rfl (by decide),
   claim_C5_amended.2.2.2.1 (lit "A") 1 agentState0 none e1 [] rfl (by decide)⟩

/-!
## Aggregation lemmas (claim C1)
-/

/-- Keys after a dict assignment: unchanged when present, appended when
new. -/
theorem dictSet_map_fst {α : Type} (l : List (Nat × α)) (k : Nat) (v : α) :
    (dictSet l k v).map Prod.fst
      = if k ∈ l.map Prod.fst then l.map Prod.fst else l.map Prod.fst ++ [k] := by
  induction l with
  | nil => simp [dictSet]
  | cons p t ih =>
      obtain ⟨k', v'⟩ := p
      simp only [dictSet]
      by_cases h : k' = k
      · subst h
        simp
      · rw [if_neg h]
        simp only [List.map_cons, ih, List.mem_cons]
        by_cases hm : k ∈ t.map Prod.fst
        · simp [hm]
        · simp [hm, Ne.symm h]

/-- One insertion-order step. -/
theorem insertionKeys_step (l : List Nat) (k : Nat) :
    insertionKeys (l ++ [k])
      = if k ∈ insertionKeys l then insertionKeys l else insertionKeys l ++ [k] := by
  simp [insertionKeys, List.foldl_append]

/-- The insertion-order fold preserves distinctness. -/
theorem insertionKeys_nodup_aux (l : List Nat) :
    ∀ acc : List Nat, acc.Nodup →
      (l.foldl (fun acc i => if i ∈ acc then acc else acc ++ [i]) acc).Nodup := by
  induction l with
  | nil => intro acc h; exact h
  | cons x t ih =>
      intro acc h
      simp only [List.foldl_cons]
      by_cases hm : x ∈ acc
      · rw [if_pos hm]; exact ih acc h
      · rw [if_neg hm]
        refine ih _ ?_
        simp [List.nodup_append, h, hm]

/-- Insertion-ordered keys are distinct. -/
theorem insertionKeys_nodup (l : List Nat) : (insertionKeys l).Nodup :=
  insertionKeys_nodup_aux l [] (by simp)

/-- The fold only grows the accumulator. -/
theorem insertionKeys_len_aux (l : List Nat) :
    ∀ acc : List Nat,
      acc.length ≤ (l.foldl (fun acc i => if i ∈ acc then acc else acc ++ [i]) acc).length := by
  induction l with
  | nil => intro acc; exact le_refl _
  | cons x t ih =>
      intro acc
      simp only [List.foldl_cons]
      by_cases hm : x ∈ acc
      · rw [if_pos hm]; exact ih acc
      · rw [if_neg hm]
        refine le_trans ?_ (ih (acc ++ [x]))
        simp

/-- A non-empty index sequence has non-empty insertion-ordered keys. -/
theorem insertionKeys_ne_nil (x : Nat) (xs : List Nat) :
    insertionKeys (x :: xs) ≠ [] := by
  intro hcontra
  have h1 : 1 ≤ (insertionKeys (x :: xs)).length := by
    unfold insertionKeys
    simp only [List.foldl_cons]
    have h2 := insertionKeys_len_aux xs [x]
    simpa using h2
  rw [hcontra] at h1
  simp at h1

/-- Membership after a dict assignment, for distinct keys. -/
theorem dictSet_mem {α : Type} (l : List (Nat × α)) (k : Nat) (v : α)
    (hnd : (l.map Prod.fst).Nodup) (q : Nat × α) (hq : q ∈ dictSet l k v) :
    q = (k, v) ∨ (q ∈ l ∧ q.1 ≠ k) := by
  induction l with
  | nil =>
      simp only [dictSet, List.mem_singleton] at hq
      left; exact hq
  | cons p t ih =>
      obtain ⟨k', v'⟩ := p
      simp only [dictSet] at hq
      simp only [List.map_cons, List.nodup_cons] at hnd
      by_cases h : k' = k
      · subst h
        rw [if_pos rfl] at hq
        rcases List.mem_cons.mp hq with rfl | hmem
        · left; rfl
        · right
          refine ⟨List.mem_cons_of_mem _ hmem, ?_⟩
          intro hqk
          have hin : q.1 ∈ t.map Prod.fst := List.mem_map_of_mem Prod.fst hmem
          rw [hqk] at hin
          exact hnd.1 hin
      · rw [if_neg h] at hq
        rcases List.mem_cons.mp hq with rfl | hmem
        · right; exact ⟨List.mem_cons_self _ _, h⟩
        · rcases ih hnd.2 hmem with h1 | ⟨h2, h3⟩
          · left; exact h1
          · right; exact ⟨List.mem_cons_of_mem _ h2, h3⟩

/-- Reading a dict after an extend. -/
theorem dictGet_dictExtend (l : List (Nat × List Part)) (k : Nat) (vs : List Part)
    (j : Nat) :
    dictGet (dictExtend l k vs) j
      = if j = k then some ((dictGet l k).getD [] ++ vs) else dictGet l j := by
  induction l with
  | nil =>
      by_cases h : j = k
      · subst h; simp [dictExtend, dictGet]
      · have h2 : ¬k = j := fun hh => h hh.symm
        simp [dictExtend, dictGet, h, h2]
  | cons p t ih =>
      obtain ⟨k', v'⟩ := p
      simp only [dictExtend]
      by_cases h : k' = k
      · subst h
        rw [if_pos rfl]
        by_cases hj : k' = j
        · subst hj
          simp [dictGet]
        · simp [dictGet, hj, Ne.symm hj]
      · rw [if_neg h]
        by_cases hj : k' = j
        · subst hj
          simp [dictGet, h]
        · simp [dictGet, hj, ih, h]

/-- The last pair for an index after appending one pair. -/
theorem lastPairFor_append_single (ps : List (Nat × Candidate))
    (q : Nat × Candidate) (i : Nat) :
    lastPairFor (ps ++ [q]) i = if q.1 = i then some q.2 else lastPairFor ps i := by
  induction ps with
  | nil => simp [lastPairFor]
  | cons p t ih =>
      simp only [List.cons_append, lastPairFor, List.append_eq]
      rw [ih]
      by_cases h : q.1 = i
      · simp [h]
      · simp [h]

/-- The cross-chunk concatenation after appending one pair. -/
theorem pairsConcat_append_single (ps : List (Nat × Candidate))
    (q : Nat × Candidate) (i : Nat) :
    pairsConcat (ps ++ [q]) i
      = pairsConcat ps i ++ (if q.1 = i then partsOfCand q.2 else []) := by
  simp [pairsConcat]

/-- `pairStep` assigns the candidate meta dict and nothing else of it. -/
theorem pairStep_meta (st : AggState) (q : Nat × Candidate) :
    (pairStep st q).candidate_meta = dictSet st.candidate_meta q.1 q.2 := by
  unfold pairStep
  cases q.2.content with
  | none => rfl
  | some ct => by_cases h : (ct.parts.getD []).isEmpty <;> simp [h]

/-- `pairStep` extends the parts buffer exactly by the candidate's parts. -/
theorem pairStep_parts (st : AggState) (q : Nat × Candidate) :
    (pairStep st q).aggregated_parts
      = if (partsOfCand q.2).isEmpty then st.aggregated_parts
        else dictExtend st.aggregated_parts q.1 (partsOfCand q.2) := by
  unfold pairStep partsOfCand
  cases q.2.content with
  | none => simp
  | some ct => by_cases h : (ct.parts.getD []).isEmpty <;> simp [h]

/-- `pairStep` leaves the remembered final chunk alone. -/
theorem pairStep_final (st : AggState) (q : Nat × Candidate) :
    (pairStep st q).final_chunk = st.final_chunk := by
  unfold pairStep
  cases q.2.content with
  | none => rfl
  | some ct => by_cases h : (ct.parts.getD []).isEmpty <;> simp [h]

/-- One pair preserves the aggregation invariant. -/
theorem pairStep_inv (ps : List (Nat × Candidate)) (st : AggState)
    (q : Nat × Candidate) (h : AggInvariant ps st) :
    AggInvariant (ps ++ [q]) (pairStep st q) := by
  obtain ⟨hkeys, hval, hparts⟩ := h
  refine ⟨?_, ?_, ?_⟩
  · rw [pairStep_meta, dictSet_map_fst, hkeys, List.map_append]
    rw [List.map_singleton, insertionKeys_step]
  · intro r hr
    rw [pairStep_meta] at hr
    have hnd : (st.candidate_meta.map Prod.fst).Nodup := by
      rw [hkeys]; exact insertionKeys_nodup _
    rcases dictSet_mem _ _ _ hnd r hr with rfl | ⟨hmem, hne⟩
    · rw [lastPairFor_append_single]; simp
    · rw [lastPairFor_append_single, if_neg (fun hh => hne hh.symm)]
      exact hval r hmem
  · intro i
    rw [pairStep_parts, pairsConcat_append_single]
    by_cases hqi : q.1 = i
    · rw [if_pos hqi]
      by_cases hpe : (partsOfCand q.2).isEmpty
      · rw [if_pos hpe]
        rw [List.isEmpty_iff.mp hpe, List.append_nil]
        exact hparts i
      · rw [if_neg hpe, dictGet_dictExtend, if_pos hqi.symm]
        subst hqi
        have hne2 : ¬(pairsConcat ps q.1 ++ partsOfCand q.2).isEmpty = true := by
          rw [List.isEmpty_iff, List.append_eq_nil]
          intro hcon
          exact hpe (List.isEmpty_iff.mpr hcon.2)
        rw [if_neg hne2]
        rw [hparts q.1]
        by_cases hpc : (pairsConcat ps q.1).isEmpty
        · rw [if_pos hpc]
          rw [List.isEmpty_iff.mp hpc]
          simp
        · rw [if_neg hpc]
          simp
    · rw [if_neg hqi]
      simp only [List.append_nil]
      by_cases hpe : (partsOfCand q.2).isEmpty
      · rw [if_pos hpe]
        exact hparts i
      · rw [if_neg hpe, dictGet_dictExtend, if_neg (fun hh => hqi hh.symm)]
        exact hparts i

/-- A pair sequence preserves the aggregation invariant. -/
theorem foldl_pairStep_inv (qs : List (Nat × Candidate)) :
    ∀ (ps : List (Nat × Candidate)) (st : AggState), AggInvariant ps st →
      AggInvariant (ps ++ qs) (qs.foldl pairStep st) := by
  induction qs with
  | nil => intro ps st h; simpa using h
  | cons q qs ih =>
      intro ps st h
      have h2 := ih (ps ++ [q]) (pairStep st q) (pairStep_inv ps st q h)
      simpa [List.append_assoc] using h2

/-- One chunk preserves the aggregation invariant. -/
theorem chunkStep_inv (ps : List (Nat × Candidate)) (st : AggState)
    (ch : Response) (h : AggInvariant ps st) :
    AggInvariant (ps ++ resolvedCandidates ch) (chunkStep st ch) :=
  foldl_pairStep_inv (resolvedCandidates ch) ps _ h

/-- The whole stream preserves the aggregation invariant. -/
theorem foldl_chunkStep_inv (chunks : List Response) :
    ∀ (ps : List (Nat × Candidate)) (st : AggState), AggInvariant ps st →
      AggInvariant (ps ++ allPairs chunks) (chunks.foldl chunkStep st) := by
  induction chunks with
  | nil => intro ps st h; simpa [allPairs] using h
  | cons ch rest ih =>
      intro ps st h
      have h2 := ih (ps ++ resolvedCandidates ch) (chunkStep st ch)
        (chunkStep_inv ps st ch h)
      simpa [allPairs, List.append_assoc] using h2

/-- The invariant holds for the empty prefix and fresh state. -/
theorem aggInvariant_init : AggInvariant [] ({} : AggState) := by
  refine ⟨rfl, ?_, ?_⟩
  · intro q hq; simp [AggState] at hq
  · intro i; simp [dictGet, pairsConcat]

/-- The invariant at the end of the stream. -/
theorem agg_inv (chunks : List Response) :
    AggInvariant (allPairs chunks) (chunks.foldl chunkStep ({} : AggState)) := by
  simpa using foldl_chunkStep_inv chunks [] {} aggInvariant_init

/-- Pairs leave the remembered final chunk alone. -/
theorem foldl_pairStep_final (qs : List (Nat × Candidate)) :
    ∀ st : AggState, (qs.foldl pairStep st).final_chunk = st.final_chunk := by
  induction qs with
  | nil => intro st; rfl
  | cons q qs ih => intro st; rw [List.foldl_cons, ih, pairStep_final]

/-- A chunk step remembers that chunk. -/
theorem chunkStep_final (st : AggState) (ch : Response) :
    (chunkStep st ch).final_chunk = some ch := by
  unfold chunkStep
  rw [foldl_pairStep_final]

/-- A non-empty stream leaves some member chunk as the final chunk. -/
theorem foldl_chunkStep_final (chunks : List Response) :
    ∀ st : AggState, chunks ≠ [] →
      ∃ ch, ch ∈ chunks ∧ (chunks.foldl chunkStep st).final_chunk = some ch := by
  induction chunks with
  | nil => intro st h; exact absurd rfl h
  | cons c rest ih =>
      intro st _
      cases rest with
      | nil => exact ⟨c, by simp, by simp [chunkStep_final]⟩
      | cons d ds =>
          obtain ⟨ch, hmem, hfin⟩ := ih (chunkStep st c) (by simp)
          exact ⟨ch, List.mem_cons_of_mem _ hmem, hfin⟩

/-- Pointwise correctness of the final assembly: under the invariant, each
combined candidate carries exactly the cross-chunk concatenation for its
index — or, when none arrived, the terminal content blob of the last-seen
candidate — and the last-seen candidate's own index field. -/
theorem buildCandidate_spec (ps : List (Nat × Candidate)) (st : AggState)
    (h : AggInvariant ps st) (q : Nat × Candidate) (hq : q ∈ st.candidate_meta) :
    partsOfCand (buildCandidate st q) = specCandidateParts ps q.1 ∧
    (buildCandidate st q).index = (lastPairFor ps q.1).bind Candidate.index := by
  obtain ⟨hkeys, hval, hparts⟩ := h
  have hlast := hval q hq
  constructor
  · by_cases hsc : (pairsConcat ps q.1).isEmpty
    · have hp0 : dictGet st.aggregated_parts q.1 = none := by
        rw [hparts q.1, if_pos hsc]
      simp only [buildCandidate, specCandidateParts, hp0, if_pos hsc, hlast]
      cases hcc : q.2.content with
      | none =>
          simp only [hcc, optPartsTruthy, Bool.false_or]
          repeat' split
          all_goals simp_all [partsOfCand]
      | some ct =>
          simp only [hcc, optPartsTruthy, Bool.false_or]
          repeat' split
          all_goals simp_all [partsOfCand]
    · have hp0 : dictGet st.aggregated_parts q.1
          = some (pairsConcat ps q.1) := by
        rw [hparts q.1, if_neg hsc]
      have htr : optPartsTruthy (some (pairsConcat ps q.1)) = true := by
        simp [optPartsTruthy, List.isEmpty_iff]
        intro hcon
        exact hsc (by simp [hcon])
      simp only [buildCandidate, specCandidateParts, hp0, if_neg hsc, htr,
        if_true, Bool.true_or]
      simp [partsOfCand]
  · have hidx : (buildCandidate st q).index = q.2.index := rfl
    rw [hidx, hlast]
    rfl

/-- Mapping a per-entry function over an association list agrees with mapping
the induced per-key function over the key list. -/
theorem map_eq_map_of_fst {α : Type} (g : Nat × Candidate → α) (f : Nat → α) :
    ∀ (l : List (Nat × Candidate)) (keys : List Nat),
      l.map Prod.fst = keys → (∀ q ∈ l, g q = f q.1) → l.map g = keys.map f := by
  intro l
  induction l with
  | nil =>
      intro keys hk _
      simp only [List.map_nil] at hk
      subst hk
      rfl
  | cons q t ih =>
      intro keys hk hg
      cases keys with
      | nil => simp at hk
      | cons k kt =>
          simp only [List.map_cons, List.cons.injEq] at hk
          obtain ⟨hk1, hk2⟩ := hk
          simp only [List.map_cons]
          rw [hg q (List.mem_cons_self _ _), hk1,
            ih kt hk2 (fun r hr => hg r (List.mem_cons_of_mem _ hr))]

/-- C1: for every chunk sequence with at least one chunk, streaming
aggregation produces exactly one response whose candidates are exactly the
resolved indices that appeared in some chunk (positional fallback when the
backend omits one), in first-appearance order; each candidate's parts are
the concatenation, in chunk-arrival order, of that index's parts across all
chunks, and a candidate that received no chunk-level parts gets the parts of
the terminal content blob of its last-seen candidate; each candidate carries
the last-seen candidate's own index field. -/
theorem claim_C1 (chunks : List Response) (h : chunks ≠ []) :
    ∃ resp, _stream_model_response chunks = .ok resp ∧
      (resp.candidates.getD []).map partsOfCand
        = (insertionKeys ((allPairs chunks).map Prod.fst)).map
            (specCandidateParts (allPairs chunks)) ∧
      (resp.candidates.getD []).map Candidate.index
        = (insertionKeys ((allPairs chunks).map Prod.fst)).map
            (fun i => (lastPairFor (allPairs chunks) i).bind Candidate.index) := by
  have hinv := agg_inv chunks
  obtain ⟨hkeys, hval, hparts⟩ := hinv
  unfold _stream_model_response
  rw [if_neg (by simpa using h)]
  by_cases hcomb :
      ((chunks.foldl chunkStep ({} : AggState)).candidate_meta.map
        (buildCandidate (chunks.foldl chunkStep ({} : AggState)))).isEmpty
  · rw [if_pos hcomb]
    have hmeta : (chunks.foldl chunkStep ({} : AggState)).candidate_meta = [] := by
      have := List.isEmpty_iff.mp hcomb
      exact List.map_eq_nil_iff.mp this
    have hker : insertionKeys ((allPairs chunks).map Prod.fst) = [] := by
      rw [← hkeys, hmeta]
      rfl
    have hpairs : allPairs chunks = [] := by
      cases hap : (allPairs chunks).map Prod.fst with
      | nil => exact List.map_eq_nil_iff.mp hap
      | cons x xs =>
          exfalso
          rw [hap] at hker
          exact insertionKeys_ne_nil x xs hker
    obtain ⟨ch, hmem, hfin⟩ := foldl_chunkStep_final chunks {} h
    rw [hfin]
    have hres : resolvedCandidates ch = [] := by
      have hflat := hpairs
      unfold allPairs at hflat
      have hmm : resolvedCandidates ch ∈ chunks.map resolvedCandidates :=
        List.mem_map_of_mem resolvedCandidates hmem
      exact (List.flatten_eq_nil_iff.mp hflat) _ hmm
    have hcand : ch.candidates.getD [] = [] := by
      unfold resolvedCandidates at hres
      have := List.map_eq_nil_iff.mp hres
      simpa using this
    refine ⟨ch, rfl, ?_, ?_⟩
    · rw [hcand, hker]; rfl
    · rw [hcand, hker]; rfl
  · rw [if_neg hcomb]
    refine ⟨_, rfl, ?_, ?_⟩
    · show ((chunks.foldl chunkStep ({} : AggState)).candidate_meta.map
          (buildCandidate (chunks.foldl chunkStep ({} : AggState)))).map partsOfCand
        = _
      rw [List.map_map]
      exact map_eq_map_of_fst _ _ _ _ hkeys
        (fun q hq => (buildCandidate_spec _ _ ⟨hkeys, hval, hparts⟩ q hq).1)
    · show ((chunks.foldl chunkStep ({} : AggState)).candidate_meta.map
          (buildCandidate (chunks.foldl chunkStep ({} : AggState)))).map Candidate.index
        = _
      rw [List.map_map]
      exact map_eq_map_of_fst _ _ _ _ hkeys
        (fun q hq => (buildCandidate_spec _ _ ⟨hkeys, hval, hparts⟩ q hq).2)

/-- Witness for C1 at a concrete two-chunk stream: candidate 0's parts are
concatenated across the chunks. -/
theorem claim_C1_witness :
    _stream_model_response [quotaChunk, quotaChunk] = .ok quotaResp2 ∧
    (quotaResp2.candidates.getD []).map partsOfCand
      = (insertionKeys ((allPairs [quotaChunk, quotaChunk]).map Prod.fst)).map
          (specCandidateParts (allPairs [quotaChunk, quotaChunk])) := by
  obtain ⟨resp, h1, h2, h3⟩ := claim_C1 [quotaChunk, quotaChunk] (by simp)
  have hr : (Except.ok resp : Except StreamError Response) = .ok quotaResp2 := by
    rw [← h1]
    rfl
  have hresp : resp = quotaResp2 := by
    injection hr
  constructor
  · rw [h1, hresp]
  · rw [← hresp]
    exact h2

end Bounter
